import Mathlib

/-!
# Low-overhead polling: a shallow embedding of `low-overhead-polling.c`

The program benchmarks four ways of letting a running loop be interrupted:
no poll, a flag check, a store into a poll page and a `testq` instruction.
The embedding models

* the global state (`interrupt_flag`, the poll page and its protection, the
  `jmp_buf` named `interrupt_handler`, the installed signal action) together
  with the three heap buffers handed to the multiply routines;
* the four multiply routines as total functions into `Outcome`, which records
  whether control returned, left through `longjmp`, the process was killed by
  an unhandled signal, or the behaviour is undefined in C;
* `main`, with `setjmp`/`longjmp` as an explicit catch of the `jumped` outcome.

`double` arithmetic is kept abstract: the element type `D` only needs `0`, `+`
and `*`, and nothing is assumed about them.  Values of C type `int` are
integers checked against the 32-bit range.
-/

namespace LowOverheadPolling

/-! ## Data model -/

/-- Protection modes given to `mmap`/`mprotect` in the program:
`PROT_NONE` and `PROT_READ | PROT_WRITE`. -/
inductive Prot
  | PROT_NONE
  | PROT_READ_WRITE
  deriving DecidableEq

/-- The page behind the pointer `poll_page`: its protection and the `int`
stored at its start. -/
structure PollPage where
  prot : Prot
  value : Int
  deriving DecidableEq

/-- The three call sites of `setjmp(interrupt_handler)` in `main`, in program
order (lines 147, 161 and 175). -/
inductive Region
  | flag
  | write
  | test
  deriving DecidableEq

/-- The four multiply routines. -/
inductive Variant
  | uninterruptible
  | flag
  | write
  | test
  deriving DecidableEq

/-- What an asynchronous actor does when it arms an interruption: set
`interrupt_flag`, or revoke access to the poll page. -/
inductive Arming
  | set_flag
  | revoke_page
  deriving DecidableEq

/-- Observable events of a run.  `stderr` is a line written by `fprintf`
(format string as in the source; the values substituted for `%p`, `%s` and
`%f` are not modelled).  `setjmp r v` records that the `setjmp` of region `r`
returned `v`.  `call v flag page` records that `main` invoked routine `v`
while `interrupt_flag` was `flag` and the poll page had protection `page`. -/
inductive Event
  | stderr (text : String)
  | clock_gettime
  | setjmp (r : Region) (value : Int)
  | call (v : Variant) (flag : Bool) (page : Option Prot)
  deriving DecidableEq

/-- Global state of the process.

* `interrupt_flag`, `poll_page`, `interrupt_handler` are the three globals of
  the source; `poll_page = none` is the null pointer before `setup_poll_page`,
  `interrupt_handler = none` is a `jmp_buf` no `setjmp` has filled yet.
* `sigbus_action` tells whether `protection_handler` is installed for `SIGBUS`.
* `a`, `b`, `c` are the three disjoint heap buffers the routines work on.
* `trace` is the list of events so far, oldest first.
* `polls` is a ghost counter of executed polls.
* `async` is the environment: `some (t, arm)` means an asynchronous actor
  performs `arm` once `t` more polls have passed, that is right before the poll
  after those; `none` means there is no such actor, which is the case in every
  run of `main`, where arming is done synchronously by `main` itself. -/
structure Machine (D : Type) where
  interrupt_flag : Bool
  poll_page : Option PollPage
  interrupt_handler : Option Region
  sigbus_action : Bool
  a : List D
  b : List D
  c : List D
  trace : List Event
  polls : Nat
  async : Option (Nat × Arming)
  deriving DecidableEq

/-- How a piece of code ends: it falls through with a result, leaves through
`longjmp(interrupt_handler, 1)`, the process is killed by a signal without
handler, or the behaviour is undefined (signed overflow, access outside a
buffer, store through a null pointer, `longjmp` on an unfilled `jmp_buf`). -/
inductive Outcome (D σ : Type)
  | returned (s : σ)
  | jumped (m : Machine D)
  | killed (m : Machine D)
  | undefined
  deriving DecidableEq

/-- Sequencing: the continuation runs only after a normal completion. -/
def Outcome.bind {D σ τ : Type} (o : Outcome D σ) (f : σ → Outcome D τ) : Outcome D τ :=
  match o with
  | .returned s => f s
  | .jumped m => .jumped m
  | .killed m => .killed m
  | .undefined => .undefined

/-- The loop `for (int i = start; i < start + count; i++) body`, by recursion
on the number `count` of iterations still to run. -/
def iterate {D σ : Type} (body : Int → σ → Outcome D σ) : Nat → Int → σ → Outcome D σ
  | 0, _, s => .returned s
  | count + 1, i, s => (body i s).bind (iterate body count (i + 1))

/-- The loop `for (int i = 0; i < size; i++) body`: it runs `size` iterations
when `size` is positive and none otherwise. -/
def for_int {D σ : Type} (size : Int) (body : Int → σ → Outcome D σ) (s : σ) : Outcome D σ :=
  iterate body size.toNat 0 s

/-! ## 32-bit `int` arithmetic and buffer accesses -/

def INT_MAX : Int := 2147483647

def INT_MIN : Int := -2147483648

/-- Product of two `int`s; `none` on signed overflow. -/
def int_mul (x y : Int) : Option Int :=
  if INT_MIN ≤ x * y ∧ x * y ≤ INT_MAX then some (x * y) else none

/-- Sum of two `int`s; `none` on signed overflow. -/
def int_add (x y : Int) : Option Int :=
  if INT_MIN ≤ x + y ∧ x + y ≤ INT_MAX then some (x + y) else none

/-- The index expression `i*size + k` of the source, evaluated in `int`. -/
def index (i size k : Int) : Option Int :=
  (int_mul i size).bind fun m => int_add m k

/-- Read `buf[idx]`; `none` outside the buffer. -/
def load {D : Type} (buf : List D) (idx : Int) : Option D :=
  if 0 ≤ idx then buf[idx.toNat]? else none

/-- Write `buf[idx] = v`; `none` outside the buffer. -/
def store {D : Type} (buf : List D) (idx : Int) (v : D) : Option (List D) :=
  if 0 ≤ idx ∧ idx.toNat < buf.length then some (buf.set idx.toNat v) else none

section Routines

variable {D : Type}

/-! ## Poll page, signal handler, resumption point -/

/-- Append an event to the trace. -/
def Machine.log (s : Machine D) (e : Event) : Machine D :=
  { s with trace := s.trace ++ [e] }

/-- The call `mprotect(poll_page, sizeof(int), prot)`; on a null `poll_page`
the call fails and changes nothing (the source ignores the return value). -/
def mprotect (prot : Prot) (s : Machine D) : Machine D :=
  match s.poll_page with
  | some pg => { s with poll_page := some { pg with prot := prot } }
  | none => s

/-- The call `longjmp(interrupt_handler, 1)`. -/
def longjmp (s : Machine D) : Outcome D (Machine D) :=
  match s.interrupt_handler with
  | some _ => .jumped s
  | none => .undefined

/-- Source lines 98-101. -/
def invalidate_poll_page (s : Machine D) : Machine D :=
  mprotect .PROT_NONE (s.log (.stderr "invalidating poll page\n"))

/-- Source lines 103-107. -/
def protection_handler (s : Machine D) : Outcome D (Machine D) :=
  longjmp (mprotect .PROT_READ_WRITE (s.log (.stderr "protection fault handled\n")))

/-- Delivery of the protection fault raised by an access to a no-access page:
the installed action runs, or the process is killed if none is installed. -/
def sigbus (s : Machine D) : Outcome D (Machine D) :=
  if s.sigbus_action then protection_handler s else .killed s

/-- What the asynchronous actor does when it arms. -/
def Arming.perform (arm : Arming) (s : Machine D) : Machine D :=
  match arm with
  | .set_flag => { s with interrupt_flag := true }
  | .revoke_page => mprotect .PROT_NONE s

/-- One step of the environment, taken right before each poll. -/
def environment (s : Machine D) : Machine D :=
  match s.async with
  | none => s
  | some (0, arm) => arm.perform { s with async := none }
  | some (t + 1, arm) => { s with async := some (t, arm) }

/-- Ghost bookkeeping of a poll: the environment steps and the poll is counted. -/
def begin_poll (s : Machine D) : Machine D :=
  let s := environment s
  { s with polls := s.polls + 1 }

/-- Source lines 53-55: `if (interrupt_flag) { longjmp(interrupt_handler, 1); }`. -/
def flag_poll (s : Machine D) : Outcome D (Machine D) :=
  let s := begin_poll s
  if s.interrupt_flag then longjmp s else .returned s

/-- Source line 68: `*((int *)poll_page) = 14;`. -/
def write_poll (s : Machine D) : Outcome D (Machine D) :=
  let s := begin_poll s
  match s.poll_page with
  | none => .undefined
  | some pg =>
    match pg.prot with
    | .PROT_READ_WRITE => .returned { s with poll_page := some { pg with value := 14 } }
    | .PROT_NONE => sigbus s

/-- Source line 81: `__asm__("testq %rax, _poll_page(%rip)");`.
The memory operand `_poll_page(%rip)` is the storage of the global variable
`poll_page` itself (the eight bytes that hold the pointer), not the page the
pointer refers to.  The instruction therefore reads the pointer variable, which
lies in the ordinary data segment and is always readable, combines it with
`%rax` and keeps only processor flags: no state of the model changes and the
protection of the poll page is never consulted. -/
def test_poll (s : Machine D) : Outcome D (Machine D) :=
  .returned (begin_poll s)

variable [Zero D] [Add D] [Mul D]

/-! ## The four multiply routines -/

/-- The statement `sum += a[i*size + k] * b[k*size + j];`, yielding the new
value of `sum`. -/
def multiply_accumulate (size i j k : Int) (s : Machine D) (sum : D) : Outcome D D :=
  match index i size k, index k size j with
  | some ia, some ib =>
    match load s.a ia, load s.b ib with
    | some x, some y => .returned (sum + x * y)
    | _, _ => .undefined
  | _, _ => .undefined

/-- The statement `c[i*size + j] = sum;`. -/
def store_c (size i j : Int) (sum : D) (s : Machine D) : Outcome D (Machine D) :=
  match index i size j with
  | some ic =>
    match store s.c ic sum with
    | some c' => .returned { s with c := c' }
    | none => .undefined
  | none => .undefined

/-- Source lines 36-46. -/
def uninterruptible_matrix_multiply (size : Int) (s : Machine D) : Outcome D (Machine D) :=
  for_int size (fun i s =>
    for_int size (fun j s =>
      (for_int size (fun k (st : Machine D × D) =>
          (multiply_accumulate size i j k st.1 st.2).bind fun sum =>
          .returned (st.1, sum))
        (s, 0)).bind fun st =>
      store_c size i j st.2 st.1) s) s

/-- Source lines 48-61. -/
def flag_matrix_multiply (size : Int) (s : Machine D) : Outcome D (Machine D) :=
  for_int size (fun i s =>
    for_int size (fun j s =>
      (for_int size (fun k (st : Machine D × D) =>
          (flag_poll st.1).bind fun s1 =>
          (multiply_accumulate size i j k s1 st.2).bind fun sum =>
          .returned (s1, sum))
        (s, 0)).bind fun st =>
      store_c size i j st.2 st.1) s) s

/-- Source lines 63-74. -/
def write_matrix_multiply (size : Int) (s : Machine D) : Outcome D (Machine D) :=
  for_int size (fun i s =>
    for_int size (fun j s =>
      (for_int size (fun k (st : Machine D × D) =>
          (write_poll st.1).bind fun s1 =>
          (multiply_accumulate size i j k s1 st.2).bind fun sum =>
          .returned (s1, sum))
        (s, 0)).bind fun st =>
      store_c size i j st.2 st.1) s) s

/-- Source lines 76-87. -/
def test_matrix_multiply (size : Int) (s : Machine D) : Outcome D (Machine D) :=
  for_int size (fun i s =>
    for_int size (fun j s =>
      (for_int size (fun k (st : Machine D × D) =>
          (test_poll st.1).bind fun s1 =>
          (multiply_accumulate size i j k s1 st.2).bind fun sum =>
          .returned (s1, sum))
        (s, 0)).bind fun st =>
      store_c size i j st.2 st.1) s) s

/-- Dispatch on the routine. -/
def run (v : Variant) (size : Int) (s : Machine D) : Outcome D (Machine D) :=
  match v with
  | .uninterruptible => uninterruptible_matrix_multiply size s
  | .flag => flag_matrix_multiply size s
  | .write => write_matrix_multiply size s
  | .test => test_matrix_multiply size s

/-! ## The harness -/

/-- How the process ends: `main` returns a status, `abort()` is called, the
process is killed by a signal without handler, or the behaviour is undefined. -/
inductive Exit (D : Type)
  | exited (status : Int) (s : Machine D)
  | aborted (s : Machine D)
  | killed (s : Machine D)
  | undefined

/-- What the operating system and the allocator answer: whether `mmap` and
`sigaction` succeed, and for each `malloc` either `none` (a null pointer) or
the indeterminate contents of the fresh block, cell by cell. -/
structure Env (D : Type) where
  mmap_ok : Bool
  sigaction_ok : Bool
  malloc_a : Option (Nat → D)
  malloc_b : Option (Nat → D)
  malloc_c : Option (Nat → D)

/-- State at process start: the globals hold their static initial values and
nothing is allocated. -/
def Machine.initial : Machine D :=
  { interrupt_flag := false, poll_page := none, interrupt_handler := none,
    sigbus_action := false, a := [], b := [], c := [], trace := [], polls := 0,
    async := none }

/-- Source lines 89-96; `.error` is the state in which `abort()` is called.
A fresh anonymous mapping is zero-filled. -/
def setup_poll_page (mmap_ok : Bool) (s : Machine D) : Except (Machine D) (Machine D) :=
  if mmap_ok then
    .ok (Machine.log { s with poll_page := some { prot := .PROT_READ_WRITE, value := 0 } }
      (.stderr "poll page installed to %p\n"))
  else
    .error (s.log (.stderr "error creating poll page: %s\n"))

/-- Source lines 109-117; `.error` is the state in which `abort()` is called. -/
def setup_protection_handler (sigaction_ok : Bool) (s : Machine D) :
    Except (Machine D) (Machine D) :=
  if sigaction_ok then
    .ok { s with sigbus_action := true }
  else
    .error (s.log (.stderr "error setting up bus error handler: %s\n"))

/-- A call `malloc(sizeof(double) * n)`. -/
def malloc (answer : Option (Nat → D)) (n : Nat) : Option (List D) :=
  answer.map fun contents => (List.range n).map contents

/-- Source lines 119-123; the printed number is not modelled. -/
def print_elapsed_time (s : Machine D) : Machine D :=
  (s.log .clock_gettime).log (.stderr "time: %fs\n")

/-- Ghost event marking that `main` calls routine `v` now. -/
def enter (v : Variant) (s : Machine D) : Machine D :=
  s.log (.call v s.interrupt_flag (s.poll_page.map PollPage.prot))

/-- Direct return of `setjmp(interrupt_handler)`: the buffer now names region
`r` and the value is `0`. -/
def setjmp (r : Region) (s : Machine D) : Machine D :=
  Machine.log { s with interrupt_handler := some r } (.setjmp r 0)

/-- The statement
`if (setjmp(interrupt_handler)) { fprintf(stderr, notice); } else { body }`
of region `r`.  A `longjmp` out of `body` makes the `setjmp` named by the
buffer return `1`; when that is this region the notice is printed and control
falls out of the `if`.  A buffer naming another region would send control back
to an earlier `if`; that outcome is passed on unchanged. -/
def protected_region (r : Region) (notice : String)
    (body : Machine D → Outcome D (Machine D)) (s : Machine D) : Outcome D (Machine D) :=
  match body (setjmp r s) with
  | .returned s' => .returned s'
  | .jumped s' =>
    match s'.interrupt_handler with
    | some r' =>
      if r' = r then .returned ((s'.log (.setjmp r 1)).log (.stderr notice))
      else .jumped s'
    | none => .undefined
  | .killed s' => .killed s'
  | .undefined => .undefined

/-- Source lines 150-158, the `else` branch of the first region. -/
def flag_region (size : Int) (s : Machine D) : Outcome D (Machine D) :=
  let s := s.log (.stderr "flag_matrix_multiply\n")
  let s := s.log .clock_gettime
  (flag_matrix_multiply size (enter .flag s)).bind fun s =>
  let s := print_elapsed_time s
  let s := { s with interrupt_flag := true }
  let s := s.log (.stderr "flag_matrix_multiply interrupted\n")
  flag_matrix_multiply size (enter .flag s)

/-- Source lines 164-172, the `else` branch of the second region. -/
def write_region (size : Int) (s : Machine D) : Outcome D (Machine D) :=
  let s := s.log (.stderr "write_matrix_multiply\n")
  let s := s.log .clock_gettime
  (write_matrix_multiply size (enter .write s)).bind fun s =>
  let s := print_elapsed_time s
  let s := invalidate_poll_page s
  let s := s.log (.stderr "write_matrix_multiply interrupted\n")
  write_matrix_multiply size (enter .write s)

/-- Source lines 178-186, the `else` branch of the third region. -/
def test_region (size : Int) (s : Machine D) : Outcome D (Machine D) :=
  let s := s.log (.stderr "test_matrix_multiply\n")
  let s := s.log .clock_gettime
  (test_matrix_multiply size (enter .test s)).bind fun s =>
  let s := print_elapsed_time s
  let s := invalidate_poll_page s
  let s := s.log (.stderr "test_matrix_multiply interrupted\n")
  test_matrix_multiply size (enter .test s)

/-- Source lines 140-189: `main` from the declaration of `start` on, for a
given `size` and with the three buffers in place. -/
def main_from (size : Int) (s : Machine D) : Outcome D (Machine D) :=
  let s := s.log (.stderr "uninterruptible_matrix_multiply\n")
  let s := s.log .clock_gettime
  (uninterruptible_matrix_multiply size (enter .uninterruptible s)).bind fun s =>
  let s := print_elapsed_time s
  (protected_region .flag "flag interrupted!\n" (flag_region size) s).bind fun s =>
  (protected_region .write "write protection interrupted!\n" (write_region size) s).bind fun s =>
  protected_region .test "test protection interrupted!\n" (test_region size) s

/-- Source lines 125-190.  A `longjmp` that no region of `main` catches does
not arise (each region fills the buffer before its body runs) and is mapped to
`undefined`. -/
def main (env : Env D) : Exit D :=
  match setup_poll_page env.mmap_ok Machine.initial with
  | .error s => .aborted s
  | .ok s =>
  match setup_protection_handler env.sigaction_ok s with
  | .error s => .aborted s
  | .ok s =>
  let size : Int := 1024
  match malloc env.malloc_a (size * size).toNat with
  | none => .aborted s
  | some a =>
  match malloc env.malloc_b (size * size).toNat with
  | none => .aborted s
  | some b =>
  match malloc env.malloc_c (size * size).toNat with
  | none => .aborted s
  | some c =>
  match main_from size { s with a := a, b := b, c := c } with
  | .returned s => .exited 0 s
  | .jumped _ => .undefined
  | .killed s => .killed s
  | .undefined => .undefined

/-- Events of a finished process. -/
def Exit.trace : Exit D → List Event
  | .exited _ s => s.trace
  | .aborted s => s.trace
  | .killed s => s.trace
  | .undefined => []

end Routines

/-! ## Specification-side definitions -/

section Specification

variable {D : Type}

/-- A poll that does nothing: the uninterruptible routine has no poll. -/
def no_poll (s : Machine D) : Outcome D (Machine D) :=
  .returned s

/-- The poll statement of each routine. -/
def Variant.poll (v : Variant) : Machine D → Outcome D (Machine D) :=
  match v with
  | .uninterruptible => no_poll
  | .flag => flag_poll
  | .write => write_poll
  | .test => test_poll

variable [Zero D] [Add D] [Mul D]

/-- Body of the innermost loop, for a given poll statement. -/
def inner_body (poll : Machine D → Outcome D (Machine D)) (size i j : Int) (k : Int)
    (st : Machine D × D) : Outcome D (Machine D × D) :=
  (poll st.1).bind fun s1 =>
  (multiply_accumulate size i j k s1 st.2).bind fun sum =>
  .returned (s1, sum)

/-- Body of the middle loop: one cell of the result. -/
def cell_body (poll : Machine D → Outcome D (Machine D)) (size i : Int) (j : Int)
    (s : Machine D) : Outcome D (Machine D) :=
  (for_int size (inner_body poll size i j) (s, 0)).bind fun st =>
  store_c size i j st.2 st.1

/-- Body of the outer loop: one row of the result. -/
def row_body (poll : Machine D → Outcome D (Machine D)) (size : Int) (i : Int)
    (s : Machine D) : Outcome D (Machine D) :=
  for_int size (cell_body poll size i) s

/-- The common shape of the four routines, for a given poll statement. -/
def multiply_with (poll : Machine D → Outcome D (Machine D)) (size : Int)
    (s : Machine D) : Outcome D (Machine D) :=
  for_int size (row_body poll size) s

/-- The sum `A[i*n + 0] * B[0*n + j] + ... + A[i*n + (t-1)] * B[(t-1)*n + j]`,
accumulated from `0` in ascending order: the value of `sum` after `t` rounds
of the innermost loop. -/
def dot_upto (n : Nat) (A B : List D) (i j : Nat) : Nat → D
  | 0 => 0
  | t + 1 => dot_upto n A B i j t + A.getD (i * n + t) 0 * B.getD (t * n + j) 0

/-- Cell `(i, j)` of the matrix product of the row-major `n*n` matrices `A`
and `B`. -/
def dot (n : Nat) (A B : List D) (i j : Nat) : D :=
  dot_upto n A B i j n

/-- The buffer `C0` after its first `t` cells, in row-major order, have been
overwritten with the cells of the product of `A` and `B`. -/
def filled (n : Nat) (A B C0 : List D) : Nat → List D
  | 0 => C0
  | t + 1 => (filled n A B C0 t).set t (dot n A B (t / n) (t % n))

end Specification

section Contracts

variable {D : Type}

/-- Contract of a poll with respect to a budgeted invariant: from a state where
the invariant holds with budget `m + 1` the poll returns, keeps the three
buffers and leaves the invariant with budget `m`. -/
def PollReturns (poll : Machine D → Outcome D (Machine D)) (Inv : Nat → Machine D → Prop) :
    Prop :=
  ∀ m s, Inv (m + 1) s →
    ∃ s', poll s = .returned s' ∧ Inv m s' ∧ s'.a = s.a ∧ s'.b = s.b ∧ s'.c = s.c

/-- The invariant does not depend on the contents of buffer `c`. -/
def FrameC (Inv : Nat → Machine D → Prop) : Prop :=
  ∀ m s c', Inv m s → Inv m { s with c := c' }

end Contracts

section Synchronous

variable {D : Type}

/-- The interruption channel that routine `v` polls is not armed in state `s`:
the flag routine looks at `interrupt_flag`, the write routine at the
protection of the poll page, the other two routines at nothing. -/
def Unarmed (v : Variant) (s : Machine D) : Prop :=
  match v with
  | .uninterruptible => True
  | .flag => s.interrupt_flag = false
  | .write => ∃ val, s.poll_page = some { prot := .PROT_READ_WRITE, value := val }
  | .test => True

/-- Polls per round of the innermost loop. -/
def Variant.polls_per_round (v : Variant) : Nat :=
  match v with
  | .uninterruptible => 0
  | _ => 1

/-- State `s` agrees with `s0` on everything but the buffers, the `int` stored
in the poll page and the poll counter. -/
def SameControl (s0 s : Machine D) : Prop :=
  s.interrupt_flag = s0.interrupt_flag ∧ s.interrupt_handler = s0.interrupt_handler ∧
  s.sigbus_action = s0.sigbus_action ∧ s.trace = s0.trace ∧
  s.poll_page.map PollPage.prot = s0.poll_page.map PollPage.prot ∧ s.async = s0.async

/-- Invariant of a run of routine `v` started in `s0` without asynchronous
actor and with its channel unarmed; `m` is the number of rounds still to come
and `P` the value of the poll counter at the end. -/
def SyncInv (v : Variant) (s0 : Machine D) (P : Nat) (m : Nat) (s : Machine D) : Prop :=
  s0.async = none ∧ Unarmed v s0 ∧ SameControl s0 s ∧ s.polls + v.polls_per_round * m = P

end Synchronous

section Samples

/-- A state as `main` builds it before its first call, for dimension `n`:
nothing armed, the handler installed, every cell of the three buffers `0`. -/
def zero_machine (n : Nat) : Machine Int :=
  { interrupt_flag := false,
    poll_page := some { prot := .PROT_READ_WRITE, value := 0 },
    interrupt_handler := none,
    sigbus_action := true,
    a := List.replicate (n * n) 0,
    b := List.replicate (n * n) 0,
    c := List.replicate (n * n) 0,
    trace := [],
    polls := 0,
    async := none }

/-- A small state of dimension `2` with `a = [[1,2],[3,4]]`, `b = [[5,6],[7,8]]`,
`c` all `9`, nothing armed, the handler installed and the `jmp_buf` filled by
the first region. -/
def sample2 : Machine Int :=
  { interrupt_flag := false,
    poll_page := some { prot := .PROT_READ_WRITE, value := 0 },
    interrupt_handler := some .flag,
    sigbus_action := true,
    a := [1, 2, 3, 4],
    b := [5, 6, 7, 8],
    c := [9, 9, 9, 9],
    trace := [],
    polls := 0,
    async := none }

end Samples

section Samples4

/-- A state of dimension `4` with small integers in `a` and `b`, `c` all `7`,
the `jmp_buf` filled by the first region and `interrupt_flag` already set. -/
def sample4_flag_set : Machine Int :=
  { interrupt_flag := true,
    poll_page := some { prot := .PROT_READ_WRITE, value := 0 },
    interrupt_handler := some .flag,
    sigbus_action := true,
    a := [1, 2, 3, 4, 5, 6, 7, 8, 9, 10, 11, 12, 13, 14, 15, 16],
    b := [1, 0, 2, 0, 0, 1, 0, 2, 3, 0, 1, 0, 0, 3, 0, 1],
    c := [7, 7, 7, 7, 7, 7, 7, 7, 7, 7, 7, 7, 7, 7, 7, 7],
    trace := [],
    polls := 0,
    async := none }

end Samples4

section Repeated

variable {D : Type} [Zero D] [Add D] [Mul D]

/-- The first `k` of a sequence of calls `write_matrix_multiply(size, a, b, c)`,
one after the other on the same buffers. -/
def write_runs (size : Int) : Nat → Machine D → Outcome D (Machine D)
  | 0, s => .returned s
  | k + 1, s => (write_runs size k s).bind (write_matrix_multiply size)

end Repeated

section Samples0

/-- A state with interruption armed on both channels (`interrupt_flag` set, the
poll page without access), an asynchronous actor about to arm again, and
three empty buffers. -/
def armed_empty : Machine Int :=
  { interrupt_flag := true,
    poll_page := some { prot := .PROT_NONE, value := 0 },
    interrupt_handler := some .test,
    sigbus_action := true,
    a := [],
    b := [],
    c := [],
    trace := [],
    polls := 0,
    async := some (0, .revoke_page) }

end Samples0

section Holds

variable {D σ : Type}

/-- A property of the way a piece of code ends: `Q` of the result when it
returns, `J` of the state when it leaves through `longjmp`. -/
def Outcome.Holds (Q : σ → Prop) (J : Machine D → Prop) : Outcome D σ → Prop
  | .returned s => Q s
  | .jumped m => J m
  | .killed _ => True
  | .undefined => True

end Holds

section HarnessSummary

variable {D : Type}

/-- What the harness needs to know of a state between two of its steps: the
flag, the resumption point, the protection of the poll page, the trace, that
the handler is installed, that no asynchronous actor exists and that the
three buffers have `n*n` cells. -/
def Ctl (n : Nat) (flag : Bool) (jmp : Option Region) (prot : Prot) (tr : List Event)
    (s : Machine D) : Prop :=
  s.interrupt_flag = flag ∧ s.interrupt_handler = jmp ∧ s.sigbus_action = true ∧
  s.trace = tr ∧ s.poll_page.map PollPage.prot = some prot ∧ s.async = none ∧
  s.a.length = n * n ∧ s.b.length = n * n ∧ s.c.length = n * n

/-- The events of `main` from line 142 to its return, in order. -/
def harness_events : List Event :=
  [ .stderr "uninterruptible_matrix_multiply\n", .clock_gettime,
    .call .uninterruptible false (some .PROT_READ_WRITE),
    .clock_gettime, .stderr "time: %fs\n",
    .setjmp .flag 0,
    .stderr "flag_matrix_multiply\n", .clock_gettime,
    .call .flag false (some .PROT_READ_WRITE),
    .clock_gettime, .stderr "time: %fs\n",
    .stderr "flag_matrix_multiply interrupted\n",
    .call .flag true (some .PROT_READ_WRITE),
    .setjmp .flag 1, .stderr "flag interrupted!\n",
    .setjmp .write 0,
    .stderr "write_matrix_multiply\n", .clock_gettime,
    .call .write true (some .PROT_READ_WRITE),
    .clock_gettime, .stderr "time: %fs\n",
    .stderr "invalidating poll page\n",
    .stderr "write_matrix_multiply interrupted\n",
    .call .write true (some .PROT_NONE),
    .stderr "protection fault handled\n",
    .setjmp .write 1, .stderr "write protection interrupted!\n",
    .setjmp .test 0,
    .stderr "test_matrix_multiply\n", .clock_gettime,
    .call .test true (some .PROT_READ_WRITE),
    .clock_gettime, .stderr "time: %fs\n",
    .stderr "invalidating poll page\n",
    .stderr "test_matrix_multiply interrupted\n",
    .call .test true (some .PROT_NONE) ]

/-- The events of a run of `main` in which every set-up call succeeds. -/
def main_events : List Event :=
  .stderr "poll page installed to %p\n" :: harness_events

/-- Every set-up call of `main` succeeds. -/
def Env.ok (env : Env D) : Prop :=
  env.mmap_ok = true ∧ env.sigaction_ok = true ∧ env.malloc_a.isSome = true ∧
  env.malloc_b.isSome = true ∧ env.malloc_c.isSome = true

/-- An environment in which every set-up call succeeds and fresh memory reads
as `0`. -/
def env0 : Env Int :=
  { mmap_ok := true, sigaction_ok := true, malloc_a := some fun _ => 0,
    malloc_b := some fun _ => 0, malloc_c := some fun _ => 0 }

end HarnessSummary

section TraceQueries

/-- Number of times the `setjmp` of region `r` returned `0` (direct return:
"continue"). -/
def captures (r : Region) (tr : List Event) : Nat :=
  (tr.filter fun e =>
    match e with
    | .setjmp r' v => decide (r' = r ∧ v = 0)
    | _ => false).length

/-- Number of times the `setjmp` of region `r` returned a non-zero value
(return through `longjmp`: "resumed"). -/
def resumptions (r : Region) (tr : List Event) : Nat :=
  (tr.filter fun e =>
    match e with
    | .setjmp r' v => decide (r' = r ∧ v ≠ 0)
    | _ => false).length

/-- The calls of the routines, in order. -/
def calls (tr : List Event) : List Event :=
  tr.filter fun e =>
    match e with
    | .call _ _ _ => true
    | _ => false

end TraceQueries

section Asynchronous

variable {D : Type}

/-- The state `sample2` after two complete write runs. -/
def sample2_after : Machine Int :=
  { sample2 with c := [19, 22, 43, 50], polls := 16,
                 poll_page := some { prot := .PROT_READ_WRITE, value := 14 } }

/-- The state `sample2` with the poll page revoked. -/
def sample2_revoked : Machine Int :=
  { sample2 with poll_page := some { prot := .PROT_NONE, value := 0 } }

/-- The state in which the write routine run on `sample2_revoked` jumps. -/
def sample2_recovered : Machine Int :=
  { sample2 with polls := 1, trace := [.stderr "protection fault handled\n"] }

end Asynchronous

section Arming

variable {D : Type}

end Arming

/-! ## General facts about outcomes and loops -/

section Loops

variable {D σ τ : Type}

@[simp] theorem bind_returned (s : σ) (f : σ → Outcome D τ) :
    (Outcome.returned s : Outcome D σ).bind f = f s := rfl

@[simp] theorem bind_jumped (m : Machine D) (f : σ → Outcome D τ) :
    (Outcome.jumped m : Outcome D σ).bind f = .jumped m := rfl

@[simp] theorem bind_killed (m : Machine D) (f : σ → Outcome D τ) :
    (Outcome.killed m : Outcome D σ).bind f = .killed m := rfl

@[simp] theorem bind_undefined (f : σ → Outcome D τ) :
    (Outcome.undefined : Outcome D σ).bind f = .undefined := rfl

@[simp] theorem iterate_zero (body : Int → σ → Outcome D σ) (i : Int) (s : σ) :
    iterate body 0 i s = .returned s := rfl

theorem iterate_succ (body : Int → σ → Outcome D σ) (count : Nat) (i : Int) (s : σ) :
    iterate body (count + 1) i s = (body i s).bind (iterate body count (i + 1)) := rfl

theorem bind_bind {υ : Type} (o : Outcome D σ) (f : σ → Outcome D τ) (g : τ → Outcome D υ) :
    (o.bind f).bind g = o.bind fun s => (f s).bind g := by
  cases o <;> rfl

/-- Running `m + r` rounds is running `m` rounds and then `r` more. -/
theorem iterate_add (body : Int → σ → Outcome D σ) (m r : Nat) (i : Int) (s : σ) :
    iterate body (m + r) i s = (iterate body m i s).bind (iterate body r (i + m)) := by
  induction m generalizing i s with
  | zero => simp
  | succ m ih =>
    rw [Nat.add_right_comm, iterate_succ, iterate_succ, bind_bind]
    congr 1
    funext s1
    rw [ih]
    have h : i + 1 + (m : Int) = i + ((m + 1 : Nat) : Int) := by push_cast; ring
    rw [h]

/-- Loop rule: an invariant indexed by the number of completed rounds, which
every round re-establishes while returning, holds when the loop returns. -/
theorem iterate_returned (body : Int → σ → Outcome D σ) (count : Nat) :
    ∀ (P : Nat → σ → Prop) (start : Int) (s : σ),
      (∀ t s, t < count → P t s → ∃ s', body (start + t) s = .returned s' ∧ P (t + 1) s') →
      P 0 s → ∃ s', iterate body count start s = .returned s' ∧ P count s' := by
  induction count with
  | zero => intro P start s _ h0; exact ⟨s, rfl, h0⟩
  | succ count ih =>
    intro P start s hstep h0
    obtain ⟨s1, h1, hP1⟩ := hstep 0 s (Nat.succ_pos _) h0
    simp only [Nat.cast_zero, add_zero] at h1
    obtain ⟨s2, h2, hP2⟩ := ih (fun t => P (t + 1)) (start + 1) s1
      (fun t s ht hP => by
        have := hstep (t + 1) s (Nat.succ_lt_succ ht) hP
        simpa [add_assoc, add_comm (1 : Int)] using this)
      hP1
    exact ⟨s2, by rw [iterate_succ, h1, bind_returned, h2], hP2⟩

end Loops

section Access
variable {D : Type}

/-- The index expression evaluates without overflow as long as its value
fits in an `int`. -/
theorem index_nat (n i k : Nat) (h : i * n + k ≤ 2147483647) :
    index (i : Int) (n : Int) (k : Int) = some ((i * n + k : Nat) : Int) := by
  have h3 : ((i : Int) * n) = ((i * n : Nat) : Int) := by push_cast; rfl
  have h4 : ((i * n : Nat) : Int) + (k : Int) = ((i * n + k : Nat) : Int) := by push_cast; rfl
  have h5 : (0 : Int) ≤ ((i * n : Nat) : Int) := Int.natCast_nonneg _
  have h6 : (0 : Int) ≤ ((i * n + k : Nat) : Int) := Int.natCast_nonneg _
  have h7 : ((i * n : Nat) : Int) ≤ 2147483647 := by omega
  have h8 : ((i * n + k : Nat) : Int) ≤ 2147483647 := by omega
  unfold index int_mul int_add INT_MIN INT_MAX
  rw [h3, if_pos ⟨by omega, h7⟩]
  simp only [Option.some_bind]
  rw [h4, if_pos ⟨by omega, h8⟩]

theorem load_nat (buf : List D) (q : Nat) : load buf (q : Int) = buf[q]? := by
  simp [load]

theorem load_nat_lt (buf : List D) (q : Nat) (d : D) (h : q < buf.length) :
    load buf (q : Int) = some (buf.getD q d) := by
  rw [load_nat, List.getD_eq_getElem?_getD, List.getElem?_eq_getElem h]
  rfl

theorem store_nat (buf : List D) (q : Nat) (v : D) (h : q < buf.length) :
    store buf (q : Int) v = some (buf.set q v) := by
  simp [store, h]

theorem cell_index_lt (n i j : Nat) (hi : i < n) (hj : j < n) : i * n + j < n * n := by
  nlinarith

/-- Below the dimension `46340` every index of the three loops fits in an `int`. -/
theorem index_le_of_le (n i k : Nat) (hn : n ≤ 46340) (hi : i < n) (hk : k < n) :
    i * n + k ≤ 2147483647 := by
  have h1 : i * n + k < n * n := cell_index_lt n i k hi hk
  have h2 : n * n ≤ 46340 * 46340 := Nat.mul_le_mul hn hn
  omega

theorem store_c_nat (n i j : Nat) (hx : i * n + j ≤ 2147483647) (hi : i < n) (hj : j < n)
    (s : Machine D) (sum : D) (hc : s.c.length = n * n) :
    store_c (n : Int) i j sum s = .returned { s with c := s.c.set (i * n + j) sum } := by
  unfold store_c
  rw [index_nat n i j hx]
  simp only
  rw [store_nat s.c _ sum (by rw [hc]; exact cell_index_lt n i j hi hj)]

variable [Zero D] [Add D] [Mul D]

theorem multiply_accumulate_nat (n i j k : Nat) (hx : i * n + k ≤ 2147483647)
    (hy : k * n + j ≤ 2147483647) (hi : i < n) (hj : j < n)
    (hk : k < n) (s : Machine D) (sum : D) (ha : s.a.length = n * n)
    (hb : s.b.length = n * n) :
    multiply_accumulate (n : Int) i j k s sum
      = .returned (sum + s.a.getD (i * n + k) 0 * s.b.getD (k * n + j) 0) := by
  unfold multiply_accumulate
  rw [index_nat n i k hx, index_nat n k j hy]
  simp only
  rw [load_nat_lt s.a _ 0 (by rw [ha]; exact cell_index_lt n i k hi hk),
    load_nat_lt s.b _ 0 (by rw [hb]; exact cell_index_lt n k j hk hj)]

theorem filled_length (n : Nat) (A B C0 : List D) (t : Nat) :
    (filled n A B C0 t).length = C0.length := by
  induction t with
  | zero => rfl
  | succ t ih => simp [filled, ih]

theorem filled_getElem? (n : Nat) (A B C0 : List D) (t q : Nat) :
    (filled n A B C0 t)[q]?
      = if q < t ∧ q < C0.length then some (dot n A B (q / n) (q % n)) else C0[q]? := by
  induction t with
  | zero => simp [filled]
  | succ t ih =>
    simp only [filled]
    by_cases hq : t = q
    · subst hq
      by_cases hl : t < C0.length
      · simp [hl, filled_length]
      · have hle : C0.length ≤ t := Nat.le_of_not_lt hl
        rw [List.getElem?_eq_none (by simpa [filled_length] using hle), if_neg (by omega),
          List.getElem?_eq_none hle]
    · rw [List.getElem?_set_ne hq, ih]
      have : (q < t + 1 ∧ q < C0.length) ↔ (q < t ∧ q < C0.length) := by omega
      simp only [this]

theorem filled_cell (n : Nat) (A B C0 : List D) (i j : Nat) (hj : j < n) :
    (filled n A B C0 (i * n + j)).set (i * n + j) (dot n A B i j)
      = filled n A B C0 (i * n + j + 1) := by
  have hn : 0 < n := Nat.lt_of_le_of_lt (Nat.zero_le _) hj
  have h1 : (i * n + j) / n = i := by
    rw [Nat.add_comm, Nat.add_mul_div_right _ _ hn, Nat.div_eq_of_lt hj, Nat.zero_add]
  have h2 : (i * n + j) % n = j := by
    rw [Nat.add_comm, Nat.add_mul_mod_self_right, Nat.mod_eq_of_lt hj]
  simp only [filled, h1, h2]

end Access

theorem for_int_nat {D σ : Type} (n : Nat) (body : Int → σ → Outcome D σ) (s : σ) :
    for_int (n : Int) body s = iterate body n 0 s := by
  simp [for_int]

/-- A loop of `n` rounds, cut at round `t`. -/
theorem iterate_split {D σ : Type} (body : Int → σ → Outcome D σ) (n t : Nat) (ht : t < n)
    (start : Int) (s : σ) :
    iterate body n start s
      = (iterate body t start s).bind fun s1 =>
          (body (start + t) s1).bind (iterate body (n - t - 1) (start + t + 1)) := by
  have h : n = t + ((n - t - 1) + 1) := by omega
  conv_lhs => rw [h, iterate_add]
  rfl

section Skeleton

variable {D : Type} [Zero D] [Add D] [Mul D]

/-- The first `t` rounds of the innermost loop return with the partial sum. -/
theorem inner_loop_returned (poll : Machine D → Outcome D (Machine D))
    (Inv : Nat → Machine D → Prop) (hpoll : PollReturns poll Inv)
    (n i j : Nat) (hi : i < n) (hj : j < n) (t m : Nat) (ht : t ≤ n)
    (hx : ∀ k, k < t → i * n + k ≤ 2147483647 ∧ k * n + j ≤ 2147483647)
    (s : Machine D) (ha : s.a.length = n * n) (hb : s.b.length = n * n)
    (hinv : Inv (m + t) s) :
    ∃ s', iterate (inner_body poll n i j) t 0 (s, 0)
        = .returned (s', dot_upto n s.a s.b i j t)
      ∧ Inv m s' ∧ s'.a = s.a ∧ s'.b = s.b ∧ s'.c = s.c := by
  obtain ⟨st, h, hP⟩ := iterate_returned (inner_body poll n i j) t
    (fun u st => Inv (m + (t - u)) st.1 ∧ st.1.a = s.a ∧ st.1.b = s.b ∧ st.1.c = s.c
      ∧ st.2 = dot_upto n s.a s.b i j u)
    0 (s, 0)
    (by
      rintro u ⟨s0, sum⟩ hu ⟨h1, h2, h3, h4, h5⟩
      simp only at h1 h2 h3 h4 h5
      have hb1 : m + (t - u) = (m + (t - (u + 1))) + 1 := by omega
      rw [hb1] at h1
      obtain ⟨s1, hp, hI, ha1, hb1, hc1⟩ := hpoll _ _ h1
      have hk : u < n := Nat.lt_of_lt_of_le hu ht
      refine ⟨(s1, dot_upto n s.a s.b i j (u + 1)), ?_, hI, ha1.trans h2, hb1.trans h3,
        hc1.trans h4, rfl⟩
      simp only [inner_body, zero_add, hp, bind_returned]
      rw [multiply_accumulate_nat n i j u (hx u hu).1 (hx u hu).2 hi hj hk s1 sum
        (by rw [ha1, h2, ha]) (by rw [hb1, h3, hb]), bind_returned, ha1, hb1, h2, h3, h5]
      rfl)
    ⟨by simpa using hinv, rfl, rfl, rfl, rfl⟩
  obtain ⟨s', sum⟩ := st
  obtain ⟨h1, h2, h3, h4, h5⟩ := hP
  simp only at h1 h2 h3 h4 h5
  subst h5
  exact ⟨s', h, by simpa using h1, h2, h3, h4⟩

/-- One cell: the innermost loop runs to its end and the sum is stored. -/
theorem cell_body_returned (poll : Machine D → Outcome D (Machine D))
    (Inv : Nat → Machine D → Prop) (hpoll : PollReturns poll Inv) (hframe : FrameC Inv)
    (n i j : Nat) (hi : i < n) (hj : j < n) (m : Nat)
    (hx : ∀ k, k < n → i * n + k ≤ 2147483647 ∧ k * n + j ≤ 2147483647)
    (s : Machine D) (ha : s.a.length = n * n) (hb : s.b.length = n * n)
    (hc : s.c.length = n * n) (hinv : Inv (m + n) s) :
    ∃ s', cell_body poll n i j s = .returned s' ∧ Inv m s' ∧ s'.a = s.a ∧ s'.b = s.b
      ∧ s'.c = s.c.set (i * n + j) (dot n s.a s.b i j) := by
  obtain ⟨s1, h, hI, ha1, hb1, hc1⟩ :=
    inner_loop_returned poll Inv hpoll n i j hi hj n m (Nat.le_refl n) hx s ha hb hinv
  refine ⟨{ s1 with c := s1.c.set (i * n + j) (dot n s.a s.b i j) }, ?_, hframe _ _ _ hI,
    ha1, hb1, by simp [hc1]⟩
  unfold cell_body
  rw [for_int_nat, h, bind_returned]
  exact store_c_nat n i j (hx j hj).1 hi hj s1 _ (by rw [hc1, hc])

/-- The first `u` cells of row `i`. -/
theorem row_cells_returned (poll : Machine D → Outcome D (Machine D))
    (Inv : Nat → Machine D → Prop) (hpoll : PollReturns poll Inv) (hframe : FrameC Inv)
    (n i : Nat) (hi : i < n) (u m : Nat) (hu : u ≤ n)
    (hx : ∀ j k, j < u → k < n → i * n + k ≤ 2147483647 ∧ k * n + j ≤ 2147483647)
    (s : Machine D) (C0 : List D) (ha : s.a.length = n * n) (hb : s.b.length = n * n)
    (hc0 : C0.length = n * n) (hc : s.c = filled n s.a s.b C0 (i * n))
    (hinv : Inv (m + u * n) s) :
    ∃ s', iterate (cell_body poll n i) u 0 s = .returned s' ∧ Inv m s' ∧ s'.a = s.a
      ∧ s'.b = s.b ∧ s'.c = filled n s.a s.b C0 (i * n + u) := by
  obtain ⟨s', h, hP⟩ := iterate_returned (cell_body poll n i) u
    (fun v s' => Inv (m + (u - v) * n) s' ∧ s'.a = s.a ∧ s'.b = s.b
      ∧ s'.c = filled n s.a s.b C0 (i * n + v))
    0 s
    (by
      rintro v s0 hv ⟨h1, h2, h3, h4⟩
      have hbud : m + (u - v) * n = (m + (u - (v + 1)) * n) + n := by
        have : u - v = (u - (v + 1)) + 1 := by omega
        rw [this, Nat.add_mul, Nat.one_mul, Nat.add_assoc]
      rw [hbud] at h1
      have hj : v < n := Nat.lt_of_lt_of_le hv hu
      obtain ⟨s1, hr, hI, ha1, hb1, hc1⟩ := cell_body_returned poll Inv hpoll hframe n i v hi
        hj _ (fun k hk => hx v k hv hk) s0 (by rw [h2, ha]) (by rw [h3, hb])
        (by rw [h4, filled_length, hc0]) h1
      refine ⟨s1, by simpa using hr, hI, ha1.trans h2, hb1.trans h3, ?_⟩
      rw [hc1, h4, h2, h3, filled_cell n s.a s.b C0 i v hj]
      rfl)
    ⟨by simpa using hinv, rfl, rfl, by simpa using hc⟩
  obtain ⟨h1, h2, h3, h4⟩ := hP
  exact ⟨s', h, by simpa using h1, h2, h3, h4⟩

/-- The first `u` rows. -/
theorem rows_returned (poll : Machine D → Outcome D (Machine D))
    (Inv : Nat → Machine D → Prop) (hpoll : PollReturns poll Inv) (hframe : FrameC Inv)
    (n : Nat) (u m : Nat) (hu : u ≤ n)
    (hx : ∀ i j k, i < u → j < n → k < n → i * n + k ≤ 2147483647 ∧ k * n + j ≤ 2147483647)
    (s : Machine D) (ha : s.a.length = n * n) (hb : s.b.length = n * n)
    (hc : s.c.length = n * n) (hinv : Inv (m + u * (n * n)) s) :
    ∃ s', iterate (row_body poll n) u 0 s = .returned s' ∧ Inv m s' ∧ s'.a = s.a
      ∧ s'.b = s.b ∧ s'.c = filled n s.a s.b s.c (u * n) := by
  obtain ⟨s', h, hP⟩ := iterate_returned (row_body poll n) u
    (fun v s' => Inv (m + (u - v) * (n * n)) s' ∧ s'.a = s.a ∧ s'.b = s.b
      ∧ s'.c = filled n s.a s.b s.c (v * n))
    0 s
    (by
      rintro v s0 hv ⟨h1, h2, h3, h4⟩
      have hbud : m + (u - v) * (n * n) = (m + (u - (v + 1)) * (n * n)) + n * n := by
        have : u - v = (u - (v + 1)) + 1 := by omega
        rw [this, Nat.add_mul, Nat.one_mul, Nat.add_assoc]
      rw [hbud] at h1
      have hi : v < n := Nat.lt_of_lt_of_le hv hu
      obtain ⟨s1, hr, hI, ha1, hb1, hc1⟩ := row_cells_returned poll Inv hpoll hframe n v hi
        n _ (Nat.le_refl n) (fun j k hj hk => hx v j k hv hj hk) s0 s.c (by rw [h2, ha])
        (by rw [h3, hb]) hc (by rw [h4, h2, h3]) h1
      refine ⟨s1, ?_, hI, ha1.trans h2, hb1.trans h3, ?_⟩
      · simp only [zero_add, row_body]
        rw [for_int_nat]
        exact hr
      · rw [hc1, h2, h3, Nat.succ_mul])
    ⟨by simpa using hinv, rfl, rfl, by simp [filled]⟩
  obtain ⟨h1, h2, h3, h4⟩ := hP
  exact ⟨s', h, by simpa using h1, h2, h3, h4⟩

/-- A complete run under a poll that keeps returning. -/
theorem multiply_with_returned (poll : Machine D → Outcome D (Machine D))
    (Inv : Nat → Machine D → Prop) (hpoll : PollReturns poll Inv) (hframe : FrameC Inv)
    (n : Nat) (hn : n ≤ 46340) (m : Nat)
    (s : Machine D) (ha : s.a.length = n * n) (hb : s.b.length = n * n)
    (hc : s.c.length = n * n) (hinv : Inv (m + n * (n * n)) s) :
    ∃ s', multiply_with poll n s = .returned s' ∧ Inv m s' ∧ s'.a = s.a
      ∧ s'.b = s.b ∧ s'.c = filled n s.a s.b s.c (n * n) := by
  unfold multiply_with
  rw [for_int_nat]
  exact rows_returned poll Inv hpoll hframe n n m (Nat.le_refl n)
    (fun i j k hi hj hk => ⟨index_le_of_le n i k hn hi hk, index_le_of_le n k j hn hk hj⟩)
    s ha hb hc hinv

/-- The run up to round `(i, j, k)` of the innermost loop: when every index
used before that round fits in an `int` and the budget lasts until then, the
run reaches that round with the first `i*n + j` cells written, and a round
that does not return there decides the outcome of the whole run. -/
theorem multiply_with_reaches (poll : Machine D → Outcome D (Machine D))
    (Inv : Nat → Machine D → Prop) (hpoll : PollReturns poll Inv) (hframe : FrameC Inv)
    (n i j k m : Nat) (hi : i < n) (hj : j < n) (hk : k < n)
    (hrows : ∀ i' j' k', i' < i → j' < n → k' < n →
      i' * n + k' ≤ 2147483647 ∧ k' * n + j' ≤ 2147483647)
    (hcells : ∀ j' k', j' < j → k' < n → i * n + k' ≤ 2147483647 ∧ k' * n + j' ≤ 2147483647)
    (hrounds : ∀ k', k' < k → i * n + k' ≤ 2147483647 ∧ k' * n + j ≤ 2147483647)
    (s : Machine D) (ha : s.a.length = n * n) (hb : s.b.length = n * n)
    (hc : s.c.length = n * n) (hinv : Inv (m + ((i * n + j) * n + k)) s) :
    ∃ s' sum, Inv m s' ∧ s'.a = s.a ∧ s'.b = s.b ∧ s'.c = filled n s.a s.b s.c (i * n + j) ∧
      (∀ x, inner_body poll n i j k (s', sum) = .jumped x →
        multiply_with poll n s = .jumped x) ∧
      (inner_body poll n i j k (s', sum) = .undefined →
        multiply_with poll n s = .undefined) := by
  have hbud : m + ((i * n + j) * n + k) = ((m + k) + j * n) + i * (n * n) := by ring
  rw [hbud] at hinv
  obtain ⟨s1, hr1, hI1, ha1, hb1, hc1⟩ := rows_returned poll Inv hpoll hframe n i _
    (Nat.le_of_lt hi) hrows s ha hb hc hinv
  obtain ⟨s2, hr2, hI2, ha2, hb2, hc2⟩ := row_cells_returned poll Inv hpoll hframe n i hi j _
    (Nat.le_of_lt hj) hcells s1 s.c (by rw [ha1, ha]) (by rw [hb1, hb]) hc
    (by rw [hc1, ha1, hb1]) hI1
  obtain ⟨s3, hr3, hI3, ha3, hb3, hc3⟩ := inner_loop_returned poll Inv hpoll n i j hi hj k m
    (Nat.le_of_lt hk) hrounds s2 (by rw [ha2, ha1, ha]) (by rw [hb2, hb1, hb]) hI2
  have hrun : ∀ o : Outcome D (Machine D × D),
      inner_body poll n i j k (s3, dot_upto n s2.a s2.b i j k) = o →
      multiply_with poll n s
        = ((((o.bind (iterate (inner_body poll n i j) (n - k - 1) (0 + k + 1))).bind
              fun st => store_c n i j st.2 st.1).bind
            (iterate (cell_body poll n i) (n - j - 1) (0 + j + 1))).bind
          (iterate (row_body poll n) (n - i - 1) (0 + i + 1))) := by
    intro o ho
    unfold multiply_with
    rw [for_int_nat, iterate_split _ n i hi, hr1, bind_returned]
    simp only [zero_add, row_body]
    rw [for_int_nat, iterate_split _ n j hj, hr2, bind_returned]
    simp only [zero_add, cell_body]
    rw [for_int_nat, iterate_split _ n k hk, hr3, bind_returned]
    simp only [zero_add] at ho ⊢
    rw [ho]
  refine ⟨s3, dot_upto n s2.a s2.b i j k, hI3, by rw [ha3, ha2, ha1], by rw [hb3, hb2, hb1],
    by rw [hc3, hc2, ha1, hb1], ?_, ?_⟩
  · intro x hx
    rw [hrun _ hx]
    rfl
  · intro hu
    rw [hrun _ hu]
    rfl

end Skeleton

/-- With no round to run a loop returns at once. -/
theorem for_int_nonpos {D σ : Type} (size : Int) (h : size ≤ 0) (body : Int → σ → Outcome D σ)
    (s : σ) : for_int size body s = .returned s := by
  have : size.toNat = 0 := by omega
  simp [for_int, this]

section Shape

variable {D : Type} [Zero D] [Add D] [Mul D]

/-- Each routine is the common shape around its own poll statement. -/
theorem run_eq_multiply_with (v : Variant) (size : Int) (s : Machine D) :
    run v size s = multiply_with v.poll size s := by
  cases v <;> rfl

/-- With at least one round to run, the first thing a routine does is poll:
a poll that does not return decides the outcome of the routine. -/
theorem multiply_with_first_poll (poll : Machine D → Outcome D (Machine D)) (size : Int)
    (h : 1 ≤ size) (s : Machine D) :
    ∃ rest : Machine D → Outcome D (Machine D),
      multiply_with poll size s = (poll s).bind rest := by
  obtain ⟨m, hm⟩ : ∃ m, size.toNat = m + 1 := ⟨size.toNat - 1, by omega⟩
  refine ⟨fun s1 =>
    ((((multiply_accumulate size 0 0 0 s1 (0 : D)).bind fun sum =>
        (Outcome.returned (s1, sum) : Outcome D (Machine D × D))).bind
      (iterate (inner_body poll size 0 0) m (0 + 1))).bind fun st =>
        store_c size 0 0 st.2 st.1).bind fun s2 =>
      (iterate (cell_body poll size 0) m (0 + 1) s2).bind
        (iterate (row_body poll size) m (0 + 1)), ?_⟩
  simp only [multiply_with, for_int, hm, iterate_succ, row_body, cell_body, inner_body,
    bind_bind]

end Shape

section SyncRuns

variable {D : Type}

theorem syncInv_frame (v : Variant) (s0 : Machine D) (P : Nat) : FrameC (SyncInv v s0 P) := by
  intro m s c' h
  exact h

theorem syncInv_poll (v : Variant) (s0 : Machine D) (P : Nat) :
    PollReturns v.poll (SyncInv v s0 P) := by
  rintro m s ⟨h0, hun, ⟨hf, hh, hs, ht, hp, hy⟩, hpolls⟩
  have hy' : s.async = none := hy.trans h0
  have henv : environment s = s := by simp [environment, hy']
  cases v with
  | uninterruptible =>
    exact ⟨s, rfl, ⟨h0, hun, ⟨hf, hh, hs, ht, hp, hy⟩, by simpa [Variant.polls_per_round] using hpolls⟩,
      rfl, rfl, rfl⟩
  | flag =>
    have hfl : s.interrupt_flag = false := hf.trans hun
    refine ⟨{ s with polls := s.polls + 1 }, ?_, ⟨h0, hun, ⟨hf, hh, hs, ht, hp, hy⟩, ?_⟩,
      rfl, rfl, rfl⟩
    · simp [Variant.poll, flag_poll, begin_poll, henv, hfl]
    · simp only [Variant.polls_per_round] at hpolls ⊢
      omega
  | write =>
    obtain ⟨val, hval⟩ := hun
    rw [hval] at hp
    obtain ⟨pg, hpg, hprot⟩ : ∃ pg, s.poll_page = some pg ∧ pg.prot = .PROT_READ_WRITE := by
      cases hq : s.poll_page with
      | none => simp [hq] at hp
      | some pg => exact ⟨pg, rfl, by simpa [hq] using hp⟩
    refine ⟨{ s with polls := s.polls + 1, poll_page := some { pg with value := 14 } }, ?_,
      ⟨h0, ⟨val, hval⟩, ⟨hf, hh, hs, ht, ?_, hy⟩, ?_⟩, rfl, rfl, rfl⟩
    · simp [Variant.poll, write_poll, begin_poll, henv, hpg, hprot]
    · simp [hval, hprot]
    · simp only [Variant.polls_per_round] at hpolls ⊢
      omega
  | test =>
    refine ⟨{ s with polls := s.polls + 1 }, ?_, ⟨h0, hun, ⟨hf, hh, hs, ht, hp, hy⟩, ?_⟩,
      rfl, rfl, rfl⟩
    · simp [Variant.poll, test_poll, begin_poll, henv]
    · simp only [Variant.polls_per_round] at hpolls ⊢
      omega

variable [Zero D] [Add D] [Mul D]

/-- A run of any routine whose channel is not armed, with no asynchronous
actor, returns; it leaves the product in `c` and touches nothing else but the
poll counter and the `int` in the poll page. -/
theorem run_returned (v : Variant) (n : Nat) (hn : n ≤ 46340) (s : Machine D)
    (ha : s.a.length = n * n) (hb : s.b.length = n * n) (hc : s.c.length = n * n)
    (hasync : s.async = none) (hun : Unarmed v s) :
    ∃ s', run v n s = .returned s' ∧ SameControl s s' ∧ s'.a = s.a ∧ s'.b = s.b
      ∧ s'.c = filled n s.a s.b s.c (n * n)
      ∧ s'.polls = s.polls + v.polls_per_round * (n * (n * n)) := by
  obtain ⟨s', hr, ⟨_, _, hsc, hpolls⟩, ha', hb', hc'⟩ :=
    multiply_with_returned v.poll (SyncInv v s (s.polls + v.polls_per_round * (n * (n * n))))
      (syncInv_poll v s _) (syncInv_frame v s _) n hn 0 s ha hb hc
      ⟨hasync, hun, ⟨rfl, rfl, rfl, rfl, rfl, rfl⟩, by simp⟩
  refine ⟨s', by rw [run_eq_multiply_with]; exact hr, hsc, ha', hb', hc', ?_⟩
  simpa using hpolls

end SyncRuns

section ClaimC1

variable {D : Type} [Zero D] [Add D] [Mul D]

/-- C1, amended to dimensions at most 46340: for every dimension `n ≤ 46340`
and all `n*n` row-major `a`, `b` (and an `n*n` buffer `c`), when no interruption
is armed (`interrupt_flag` false, poll page readable and writable, no
asynchronous actor), each of the four routines returns normally, leaves `a`
and `b` as they were and leaves in every cell `c[i*n + j]` the sum of
`a[i*n + k] * b[k*n + j]` accumulated from `0` in ascending `k`; the result is
the one of the uninterruptible routine, so the polls do not alter it. -/
theorem uninterrupted_run_is_product (v : Variant) (n : Nat) (s : Machine D)
    (hn : n ≤ 46340) (ha : s.a.length = n * n) (hb : s.b.length = n * n)
    (hc : s.c.length = n * n) (hflag : s.interrupt_flag = false)
    (hpage : ∃ val, s.poll_page = some { prot := .PROT_READ_WRITE, value := val })
    (hasync : s.async = none) :
    ∃ s', run v n s = .returned s' ∧ s'.a = s.a ∧ s'.b = s.b ∧ s'.c.length = n * n ∧
      (∀ i j, i < n → j < n → s'.c[i * n + j]? = some (dot n s.a s.b i j)) ∧
      ∃ u, uninterruptible_matrix_multiply n s = .returned u ∧ s'.c = u.c := by
  have hun : Unarmed v s := by
    cases v
    · trivial
    · exact hflag
    · exact hpage
    · trivial
  obtain ⟨s', hr, _, ha', hb', hc', _⟩ := run_returned v n hn s ha hb hc hasync hun
  obtain ⟨u, hu, _, _, _, hcu, _⟩ :=
    run_returned .uninterruptible n hn s ha hb hc hasync trivial
  refine ⟨s', hr, ha', hb', by rw [hc', filled_length, hc], ?_, u, hu, by rw [hc', hcu]⟩
  intro i j hi hj
  have hq : i * n + j < n * n := cell_index_lt n i j hi hj
  have hn0 : 0 < n := Nat.lt_of_le_of_lt (Nat.zero_le _) hj
  have h1 : (i * n + j) / n = i := by
    rw [Nat.add_comm, Nat.add_mul_div_right _ _ hn0, Nat.div_eq_of_lt hj, Nat.zero_add]
  have h2 : (i * n + j) % n = j := by
    rw [Nat.add_comm, Nat.add_mul_mod_self_right, Nat.mod_eq_of_lt hj]
  rw [hc', filled_getElem?, if_pos ⟨hq, by rw [hc]; exact hq⟩, h1, h2]

end ClaimC1

/-- Witness of C1 (amended): the write routine on the sample of dimension 2. -/
theorem uninterrupted_run_is_product_witness :
    (2 ≤ 46340 ∧ sample2.a.length = 2 * 2 ∧ sample2.b.length = 2 * 2 ∧
      sample2.c.length = 2 * 2 ∧ sample2.interrupt_flag = false ∧
      (∃ val, sample2.poll_page = some { prot := .PROT_READ_WRITE, value := val }) ∧
      sample2.async = none) ∧
    ∃ s', run .write ((2 : Nat) : Int) sample2 = .returned s' ∧ s'.a = sample2.a ∧
      s'.b = sample2.b ∧ s'.c.length = 2 * 2 ∧
      (∀ i j, i < 2 → j < 2 → s'.c[i * 2 + j]? = some (dot 2 sample2.a sample2.b i j)) ∧
      ∃ u, uninterruptible_matrix_multiply ((2 : Nat) : Int) sample2 = .returned u ∧ s'.c = u.c :=
  ⟨⟨by decide, rfl, rfl, rfl, rfl, ⟨0, rfl⟩, rfl⟩,
    uninterrupted_run_is_product .write 2 sample2 (by decide) rfl rfl rfl rfl ⟨0, rfl⟩ rfl⟩

/-- Counterexample to C1 as stated (every dimension): at dimension 46341, with
three buffers of `46341 * 46341` cells and nothing armed, the uninterruptible
routine does not return a product: in row 0, column 41708, round 46340 the
index `k*size + j = 46340 * 46341 + 41708 = 2147483648` overflows `int`. -/
theorem uninterruptible_overflows_at_46341 :
    ((zero_machine 46341).a.length = 46341 * 46341 ∧
      (zero_machine 46341).b.length = 46341 * 46341 ∧
      (zero_machine 46341).c.length = 46341 * 46341 ∧
      (zero_machine 46341).interrupt_flag = false ∧
      (zero_machine 46341).poll_page = some { prot := .PROT_READ_WRITE, value := 0 } ∧
      (zero_machine 46341).async = none) ∧
    run .uninterruptible 46341 (zero_machine 46341) = .undefined := by
  refine ⟨⟨List.length_replicate _ _, List.length_replicate _ _, List.length_replicate _ _,
    rfl, rfl, rfl⟩, ?_⟩
  obtain ⟨s', sum, _, _, _, _, _, hund⟩ := multiply_with_reaches (D := Int) no_poll
    (fun _ _ => True) (fun _ s _ => ⟨s, rfl, trivial, rfl, rfl, rfl⟩) (fun _ _ _ _ => trivial)
    46341 0 41708 46340 0 (by omega) (by omega) (by omega)
    (fun i' j' k' hi' _ _ => absurd hi' (Nat.not_lt_zero _))
    (fun j' k' hj' hk' => by omega) (fun k' hk' => by omega)
    (zero_machine 46341) (List.length_replicate _ _) (List.length_replicate _ _)
    (List.length_replicate _ _) trivial
  rw [run_eq_multiply_with]
  apply hund
  have h1 : index ((46340 : Nat) : Int) ((46341 : Nat) : Int) ((41708 : Nat) : Int) = none := by
    decide
  simp only [inner_body, no_poll, bind_returned, multiply_accumulate, h1]
  cases index ((0 : Nat) : Int) ((46341 : Nat) : Int) ((46340 : Nat) : Int) <;> rfl

section Environment

variable {D : Type}

/-- The environment step touches neither the buffers, nor the trace, nor the
resumption point, nor the signal action, nor the poll counter, and it never
clears `interrupt_flag`. -/
theorem environment_frame (s : Machine D) :
    (environment s).a = s.a ∧ (environment s).b = s.b ∧ (environment s).c = s.c ∧
    (environment s).trace = s.trace ∧ (environment s).interrupt_handler = s.interrupt_handler ∧
    (environment s).sigbus_action = s.sigbus_action ∧ (environment s).polls = s.polls ∧
    (s.interrupt_flag = true → (environment s).interrupt_flag = true) := by
  unfold environment
  cases h : s.async with
  | none => simp
  | some ta =>
    obtain ⟨t, arm⟩ := ta
    cases t with
    | zero =>
      cases arm with
      | set_flag => simp [Arming.perform]
      | revoke_page =>
        simp only [Arming.perform, mprotect]
        cases s.poll_page <;> simp
    | succ t => simp

theorem begin_poll_frame (s : Machine D) :
    (begin_poll s).a = s.a ∧ (begin_poll s).b = s.b ∧ (begin_poll s).c = s.c ∧
    (begin_poll s).trace = s.trace ∧ (begin_poll s).interrupt_handler = s.interrupt_handler ∧
    (begin_poll s).sigbus_action = s.sigbus_action ∧ (begin_poll s).polls = s.polls + 1 ∧
    (s.interrupt_flag = true → (begin_poll s).interrupt_flag = true) := by
  obtain ⟨h1, h2, h3, h4, h5, h6, h7, h8⟩ := environment_frame s
  simp only [begin_poll]
  exact ⟨h1, h2, h3, h4, h5, h6, by rw [h7], h8⟩

theorem begin_poll_sync (s : Machine D) (h : s.async = none) :
    begin_poll s = { s with polls := s.polls + 1 } := by
  simp [begin_poll, environment, h]

end Environment

section FlagSet

variable {D : Type} [Zero D] [Add D] [Mul D]

/-- The flag routine entered with the flag set and a resumption point
captured jumps out of its first poll. -/
theorem flag_run_jumps (size : Int) (s : Machine D) (r : Region) (hsize : 1 ≤ size)
    (hflag : s.interrupt_flag = true) (hjmp : s.interrupt_handler = some r) :
    flag_matrix_multiply size s = .jumped (begin_poll s) := by
  obtain ⟨_, _, _, _, h5, _, _, h8⟩ := begin_poll_frame s
  obtain ⟨rest, hrest⟩ := multiply_with_first_poll flag_poll size hsize s
  have hpoll : flag_poll s = .jumped (begin_poll s) := by
    simp [flag_poll, h8 hflag, longjmp, h5, hjmp]
  show multiply_with flag_poll size s = _
  rw [hrest, hpoll, bind_jumped]

end FlagSet

section ClaimC2

variable {D : Type} [Zero D] [Add D] [Mul D]

/-- C2: for every dimension `size ≥ 1` and all `a`, `b`, `c`, when
`interrupt_flag` is already true on entry (and a resumption point has been
captured), `flag_matrix_multiply` does not return: it leaves through `longjmp`
at its very first check, so exactly one poll has been executed, no cell of `c`
has been written and `a`, `b`, `c` and the trace are as before the call. -/
theorem flag_run_with_flag_set_jumps_at_first_check (size : Int) (s : Machine D) (r : Region)
    (hsize : 1 ≤ size) (hflag : s.interrupt_flag = true)
    (hjmp : s.interrupt_handler = some r) :
    ∃ m, flag_matrix_multiply size s = .jumped m ∧ m.a = s.a ∧ m.b = s.b ∧ m.c = s.c ∧
      m.polls = s.polls + 1 ∧ m.trace = s.trace ∧ m.interrupt_flag = true ∧
      m.interrupt_handler = some r ∧
      (s.async = none → m = { s with polls := s.polls + 1 }) := by
  obtain ⟨h1, h2, h3, h4, h5, _, h7, h8⟩ := begin_poll_frame s
  exact ⟨begin_poll s, flag_run_jumps size s r hsize hflag hjmp, h1, h2, h3, h7, h4,
    h8 hflag, h5.trans hjmp, begin_poll_sync s⟩

end ClaimC2

/-- Witness of C2: dimension 4, matrices of small integers, flag set on entry. -/
theorem flag_run_with_flag_set_jumps_at_first_check_witness :
    ((1 : Int) ≤ 4 ∧ sample4_flag_set.interrupt_flag = true ∧
      sample4_flag_set.interrupt_handler = some .flag) ∧
    ∃ m, flag_matrix_multiply 4 sample4_flag_set = .jumped m ∧ m.a = sample4_flag_set.a ∧
      m.b = sample4_flag_set.b ∧ m.c = sample4_flag_set.c ∧
      m.polls = sample4_flag_set.polls + 1 ∧ m.trace = sample4_flag_set.trace ∧
      m.interrupt_flag = true ∧ m.interrupt_handler = some .flag ∧
      (sample4_flag_set.async = none →
        m = { sample4_flag_set with polls := sample4_flag_set.polls + 1 }) :=
  ⟨⟨by decide, rfl, rfl⟩,
    flag_run_with_flag_set_jumps_at_first_check 4 sample4_flag_set .flag (by decide) rfl rfl⟩

section ClaimC10

variable {D : Type} [Zero D] [Add D] [Mul D]

/-- C10: for every `size ≤ 0` each of the four routines returns normally
without running any loop body: the state on return is the state on entry, with
the same poll counter (no poll was executed), the same poll page and the same
buffer `c`; nothing is read, since the call returns even on empty buffers.
This holds in every state, also when `interrupt_flag` is set, the poll page
has no access or an asynchronous actor is about to arm: the run is not
abandoned. -/
theorem nonpositive_size_returns_unchanged (v : Variant) (size : Int) (s : Machine D)
    (hsize : size ≤ 0) : run v size s = .returned s := by
  cases v <;> exact for_int_nonpos size hsize _ s

end ClaimC10

/-- Witness of C10: size `-3`, both channels armed, empty buffers. -/
theorem nonpositive_size_returns_unchanged_witness :
    (-3 : Int) ≤ 0 ∧ armed_empty.interrupt_flag = true ∧
    armed_empty.poll_page = some { prot := .PROT_NONE, value := 0 } ∧
    run .write (-3) armed_empty = .returned armed_empty :=
  ⟨by decide, rfl, rfl, nonpositive_size_returns_unchanged .write (-3) armed_empty (by decide)⟩

section ClaimC8

variable {D : Type}

/-- C8: for every `size` with `0 ≤ size ≤ 46340` and all loop indices `i`, `j`,
`k` in `[0, size)`, the three index expressions `i*size + k`, `k*size + j`
and `i*size + j`, evaluated in 32-bit `int` arithmetic, do not overflow
(neither the product nor the sum) and lie in `[0, size*size)`; so on buffers
of `size*size` cells the two reads and the write of a round are inside their
buffer. -/
theorem indices_within_buffers (size i j k : Int) (A B C : List D) (v : D)
    (h0 : 0 ≤ size) (h1 : size ≤ 46340)
    (hi : 0 ≤ i ∧ i < size) (hj : 0 ≤ j ∧ j < size) (hk : 0 ≤ k ∧ k < size)
    (hA : A.length = (size * size).toNat) (hB : B.length = (size * size).toNat)
    (hC : C.length = (size * size).toNat) :
    (int_mul i size = some (i * size) ∧ int_mul k size = some (k * size)) ∧
    (index i size k = some (i * size + k) ∧ index k size j = some (k * size + j) ∧
      index i size j = some (i * size + j)) ∧
    (0 ≤ i * size + k ∧ i * size + k < size * size) ∧
    (0 ≤ k * size + j ∧ k * size + j < size * size) ∧
    (0 ≤ i * size + j ∧ i * size + j < size * size) ∧
    (load A (i * size + k)).isSome ∧ (load B (k * size + j)).isSome ∧
    (store C (i * size + j) v).isSome := by
  have key : ∀ x y : Int, 0 ≤ x → x < size → 0 ≤ y → y < size →
      0 ≤ x * size ∧ x * size ≤ 2147483647 ∧ 0 ≤ x * size + y ∧ x * size + y < size * size ∧
      x * size + y ≤ 2147483647 := by
    intro x y hx0 hx hy0 hy
    have h2 : x * size ≤ (size - 1) * size := by nlinarith
    have h3 : size * size ≤ 46340 * 46340 := by nlinarith
    have h4 : 0 ≤ x * size := by nlinarith
    refine ⟨h4, by nlinarith, by omega, by nlinarith, by nlinarith⟩
  have hmul : ∀ x : Int, 0 ≤ x → x < size → int_mul x size = some (x * size) := by
    intro x hx0 hx
    obtain ⟨a1, a2, _, _, _⟩ := key x 0 hx0 hx (le_refl 0) (by omega)
    unfold int_mul INT_MIN INT_MAX
    rw [if_pos ⟨by omega, a2⟩]
  have hidx : ∀ x y : Int, 0 ≤ x → x < size → 0 ≤ y → y < size →
      index x size y = some (x * size + y) := by
    intro x y hx0 hx hy0 hy
    obtain ⟨a1, a2, a3, a4, a5⟩ := key x y hx0 hx hy0 hy
    unfold index
    rw [hmul x hx0 hx]
    simp only [Option.some_bind]
    unfold int_add INT_MIN INT_MAX
    rw [if_pos ⟨by omega, a5⟩]
  have hload : ∀ (L : List D) (q : Int), L.length = (size * size).toNat → 0 ≤ q →
      q < size * size → (load L q).isSome := by
    intro L q hL hq0 hq
    have : q.toNat < L.length := by rw [hL]; omega
    simp [load, hq0, List.getElem?_eq_getElem this]
  obtain ⟨_, _, a3, a4, _⟩ := key i k hi.1 hi.2 hk.1 hk.2
  obtain ⟨_, _, b3, b4, _⟩ := key k j hk.1 hk.2 hj.1 hj.2
  obtain ⟨_, _, c3, c4, _⟩ := key i j hi.1 hi.2 hj.1 hj.2
  refine ⟨⟨hmul i hi.1 hi.2, hmul k hk.1 hk.2⟩,
    ⟨hidx i k hi.1 hi.2 hk.1 hk.2, hidx k j hk.1 hk.2 hj.1 hj.2, hidx i j hi.1 hi.2 hj.1 hj.2⟩,
    ⟨a3, a4⟩, ⟨b3, b4⟩, ⟨c3, c4⟩, hload A _ hA a3 a4, hload B _ hB b3 b4, ?_⟩
  have : (i * size + j).toNat < C.length := by rw [hC]; omega
  simp [store, c3, this]

end ClaimC8

/-- Witness of C8: the size 1024 used by `main`, at the largest indices. -/
theorem indices_within_buffers_witness :
    ((0 : Int) ≤ 1024 ∧ (1024 : Int) ≤ 46340 ∧ ((0 : Int) ≤ 1023 ∧ (1023 : Int) < 1024) ∧
      (List.replicate 1048576 (0 : Int)).length = ((1024 : Int) * 1024).toNat) ∧
    ((int_mul 1023 1024 = some (1023 * 1024) ∧ int_mul 1023 1024 = some (1023 * 1024)) ∧
    (index 1023 1024 1023 = some (1023 * 1024 + 1023) ∧
      index 1023 1024 1023 = some (1023 * 1024 + 1023) ∧
      index 1023 1024 1023 = some (1023 * 1024 + 1023)) ∧
    ((0 : Int) ≤ 1023 * 1024 + 1023 ∧ (1023 : Int) * 1024 + 1023 < 1024 * 1024) ∧
    ((0 : Int) ≤ 1023 * 1024 + 1023 ∧ (1023 : Int) * 1024 + 1023 < 1024 * 1024) ∧
    ((0 : Int) ≤ 1023 * 1024 + 1023 ∧ (1023 : Int) * 1024 + 1023 < 1024 * 1024) ∧
    (load (List.replicate 1048576 (0 : Int)) (1023 * 1024 + 1023)).isSome ∧
    (load (List.replicate 1048576 (0 : Int)) (1023 * 1024 + 1023)).isSome ∧
    (store (List.replicate 1048576 (0 : Int)) (1023 * 1024 + 1023) 5).isSome) :=
  ⟨⟨by decide, by decide, ⟨by decide, by decide⟩, List.length_replicate _ _⟩,
    indices_within_buffers 1024 1023 1023 1023 (List.replicate 1048576 (0 : Int))
      (List.replicate 1048576 (0 : Int)) (List.replicate 1048576 (0 : Int)) 5
      (by decide) (by decide) ⟨by decide, by decide⟩ ⟨by decide, by decide⟩
      ⟨by decide, by decide⟩ (List.length_replicate _ _) (List.length_replicate _ _)
      (List.length_replicate _ _)⟩

section HoldsLemmas

variable {D σ τ : Type}

theorem holds_bind (o : Outcome D σ) (f : σ → Outcome D τ) (Q : σ → Prop) (R : τ → Prop)
    (J : Machine D → Prop) (ho : o.Holds Q J) (hf : ∀ s, Q s → (f s).Holds R J) :
    (o.bind f).Holds R J := by
  cases o with
  | returned s => exact hf s ho
  | jumped m => exact ho
  | killed m => trivial
  | undefined => trivial

theorem holds_iterate (body : Int → σ → Outcome D σ) (Q : σ → Prop) (J : Machine D → Prop)
    (hbody : ∀ i s, Q s → (body i s).Holds Q J) (count : Nat) :
    ∀ (i : Int) (s : σ), Q s → (iterate body count i s).Holds Q J := by
  induction count with
  | zero => intro i s hs; exact hs
  | succ count ih =>
    intro i s hs
    rw [iterate_succ]
    exact holds_bind _ _ Q Q J (hbody i s hs) (fun s1 h1 => ih (i + 1) s1 h1)

variable [Zero D] [Add D] [Mul D]

/-- A property that every poll and every store into `c` keep holds however a
routine ends. -/
theorem holds_multiply_with (poll : Machine D → Outcome D (Machine D))
    (Q J : Machine D → Prop) (hpoll : ∀ s, Q s → (poll s).Holds Q J)
    (hstore : ∀ s c', Q s → Q { s with c := c' }) (size : Int) (s : Machine D) (hs : Q s) :
    (multiply_with poll size s).Holds Q J := by
  refine holds_iterate _ Q J (fun i s hs => ?_) _ _ s hs
  refine holds_iterate _ Q J (fun j s hs => ?_) _ _ s hs
  refine holds_bind _ _ (fun st : Machine D × D => Q st.1) Q J ?_ ?_
  · refine holds_iterate _ (fun st : Machine D × D => Q st.1) J (fun k st hst => ?_) _ _ (s, 0) hs
    refine holds_bind _ _ Q _ J (hpoll st.1 hst) (fun s1 h1 => ?_)
    cases hm : multiply_accumulate size i j k s1 st.2 with
    | returned sum => exact h1
    | jumped m =>
      exfalso
      unfold multiply_accumulate at hm
      split at hm
      · split at hm <;> cases hm
      · cases hm
    | killed m => trivial
    | undefined => trivial
  · intro st hst
    unfold store_c
    split
    · split
      · exact hstore _ _ hst
      · trivial
    · trivial

end HoldsLemmas

section HarnessSteps

variable {D : Type}

theorem ctl_log (n : Nat) (f : Bool) (j : Option Region) (p : Prot) (tr : List Event)
    (s : Machine D) (e : Event) (h : Ctl n f j p tr s) : Ctl n f j p (tr ++ [e]) (s.log e) := by
  obtain ⟨h1, h2, h3, h4, h5, h6, h7, h8, h9⟩ := h
  exact ⟨h1, h2, h3, by simp [Machine.log, h4], h5, h6, h7, h8, h9⟩

theorem ctl_enter (n : Nat) (f : Bool) (j : Option Region) (p : Prot) (tr : List Event)
    (s : Machine D) (v : Variant) (h : Ctl n f j p tr s) :
    Ctl n f j p (tr ++ [.call v f (some p)]) (enter v s) := by
  unfold enter
  rw [h.1, h.2.2.2.2.1]
  exact ctl_log n f j p tr s _ h

theorem ctl_print (n : Nat) (f : Bool) (j : Option Region) (p : Prot) (tr : List Event)
    (s : Machine D) (h : Ctl n f j p tr s) :
    Ctl n f j p (tr ++ [.clock_gettime, .stderr "time: %fs\n"]) (print_elapsed_time s) := by
  have h' := ctl_log n f j p _ _ (.stderr "time: %fs\n") (ctl_log n f j p tr s .clock_gettime h)
  simpa [print_elapsed_time] using h'

theorem ctl_setjmp (n : Nat) (f : Bool) (j : Option Region) (p : Prot) (tr : List Event)
    (s : Machine D) (r : Region) (h : Ctl n f j p tr s) :
    Ctl n f (some r) p (tr ++ [.setjmp r 0]) (setjmp r s) := by
  obtain ⟨h1, h2, h3, h4, h5, h6, h7, h8, h9⟩ := h
  exact ⟨h1, rfl, h3, by simp [setjmp, Machine.log, h4], h5, h6, h7, h8, h9⟩

theorem ctl_mprotect (n : Nat) (f : Bool) (j : Option Region) (p q : Prot) (tr : List Event)
    (s : Machine D) (h : Ctl n f j p tr s) : Ctl n f j q tr (mprotect q s) := by
  obtain ⟨h1, h2, h3, h4, h5, h6, h7, h8, h9⟩ := h
  unfold mprotect
  cases hpg : s.poll_page with
  | none => simp [hpg] at h5
  | some pg => exact ⟨h1, h2, h3, h4, rfl, h6, h7, h8, h9⟩

theorem ctl_invalidate (n : Nat) (f : Bool) (j : Option Region) (p : Prot) (tr : List Event)
    (s : Machine D) (h : Ctl n f j p tr s) :
    Ctl n f j .PROT_NONE (tr ++ [.stderr "invalidating poll page\n"])
      (invalidate_poll_page s) :=
  ctl_mprotect n f j p .PROT_NONE _ _ (ctl_log n f j p tr s _ h)

theorem ctl_set_flag (n : Nat) (f : Bool) (j : Option Region) (p : Prot) (tr : List Event)
    (s : Machine D) (h : Ctl n f j p tr s) :
    Ctl n true j p tr { s with interrupt_flag := true } := by
  obtain ⟨h1, h2, h3, h4, h5, h6, h7, h8, h9⟩ := h
  exact ⟨rfl, h2, h3, h4, h5, h6, h7, h8, h9⟩

variable [Zero D] [Add D] [Mul D]

/-- A run whose channel is not armed returns and keeps the summary. -/
theorem ctl_run (n : Nat) (hn : n ≤ 46340) (f : Bool) (j : Option Region) (p : Prot)
    (tr : List Event) (s : Machine D) (v : Variant) (h : Ctl n f j p tr s)
    (hf : v = .flag → f = false) (hp : v = .write → p = .PROT_READ_WRITE) :
    ∃ s', run v n s = .returned s' ∧ Ctl n f j p tr s' := by
  obtain ⟨h1, h2, h3, h4, h5, h6, h7, h8, h9⟩ := h
  have hun : Unarmed v s := by
    cases v with
    | uninterruptible => trivial
    | flag => exact h1.trans (hf rfl)
    | write =>
      rw [hp rfl] at h5
      cases hpg : s.poll_page with
      | none => simp [hpg] at h5
      | some pg =>
        obtain ⟨pr, val⟩ := pg
        simp [hpg] at h5
        exact ⟨val, by rw [hpg, h5]⟩
    | test => trivial
  obtain ⟨s', hr, ⟨g1, g2, g3, g4, g5, g6⟩, ha, hb, hc, _⟩ := run_returned v n hn s h7 h8 h9 h6 hun
  exact ⟨s', hr, g1.trans h1, g2.trans h2, g3.trans h3, g4.trans h4, g5.trans h5,
    g6.trans h6, by rw [ha, h7], by rw [hb, h8], by rw [hc, filled_length, h9]⟩

/-- The flag routine entered with the flag set leaves through `longjmp`. -/
theorem ctl_flag_armed (n : Nat) (hn : 1 ≤ n) (r : Region) (p : Prot)
    (tr : List Event) (s : Machine D) (h : Ctl n true (some r) p tr s) :
    ∃ s', flag_matrix_multiply (n : Int) s = .jumped s' ∧ Ctl n true (some r) p tr s' := by
  have hr := flag_run_jumps (n : Int) s r (by omega) h.1 h.2.1
  rw [begin_poll_sync s h.2.2.2.2.2.1] at hr
  exact ⟨_, hr, h⟩

/-- The write routine entered with the page revoked faults at once; the
handler restores the page and leaves through `longjmp`. -/
theorem ctl_write_armed (n : Nat) (hn : 1 ≤ n) (f : Bool) (r : Region)
    (tr : List Event) (s : Machine D) (h : Ctl n f (some r) .PROT_NONE tr s) :
    ∃ s', write_matrix_multiply (n : Int) s = .jumped s' ∧
      Ctl n f (some r) .PROT_READ_WRITE (tr ++ [.stderr "protection fault handled\n"]) s' := by
  obtain ⟨rest, hrest⟩ := multiply_with_first_poll write_poll (n : Int) (by omega) s
  have hb : Ctl n f (some r) .PROT_NONE tr (begin_poll s) := by
    rw [begin_poll_sync s h.2.2.2.2.2.1]
    exact h
  have hh := ctl_mprotect n f (some r) .PROT_NONE .PROT_READ_WRITE _ _
    (ctl_log n f (some r) .PROT_NONE tr _ (.stderr "protection fault handled\n") hb)
  refine ⟨_, ?_, hh⟩
  show multiply_with write_poll (n : Int) s = _
  rw [hrest]
  obtain ⟨_, _, h3, _, h5, _⟩ := hb
  have hpoll : write_poll s = .jumped (mprotect .PROT_READ_WRITE
      ((begin_poll s).log (.stderr "protection fault handled\n"))) := by
    unfold write_poll
    simp only
    cases hpg : (begin_poll s).poll_page with
    | none => simp [hpg] at h5
    | some pg =>
      obtain ⟨pr, val⟩ := pg
      simp [hpg] at h5
      subst h5
      simp only [sigbus, h3, if_true, protection_handler, longjmp, hh.2.1]
  rw [hpoll, bind_jumped]

end HarnessSteps

section HarnessRun

variable {D : Type}

theorem protected_region_jumped (r : Region) (notice : String)
    (body : Machine D → Outcome D (Machine D)) (s s' : Machine D)
    (hbody : body (setjmp r s) = .jumped s') (hjmp : s'.interrupt_handler = some r) :
    protected_region r notice body s
      = .returned ((s'.log (.setjmp r 1)).log (.stderr notice)) := by
  simp [protected_region, hbody, hjmp]

theorem protected_region_returned (r : Region) (notice : String)
    (body : Machine D → Outcome D (Machine D)) (s s' : Machine D)
    (hbody : body (setjmp r s) = .returned s') :
    protected_region r notice body s = .returned s' := by
  simp [protected_region, hbody]

variable [Zero D] [Add D] [Mul D]

theorem flag_region_ctl (n : Nat) (h1 : 1 ≤ n) (hn : n ≤ 46340) (p : Prot) (tr : List Event)
    (s : Machine D) (h : Ctl n false (some .flag) p tr s) :
    ∃ s', flag_region (n : Int) s = .jumped s' ∧
      Ctl n true (some .flag) p
        (tr ++ [.stderr "flag_matrix_multiply\n", .clock_gettime, .call .flag false (some p),
          .clock_gettime, .stderr "time: %fs\n", .stderr "flag_matrix_multiply interrupted\n",
          .call .flag true (some p)]) s' := by
  have a1 := ctl_log n _ _ _ _ _ (.stderr "flag_matrix_multiply\n") h
  have a2 := ctl_log n _ _ _ _ _ .clock_gettime a1
  have a3 := ctl_enter n _ _ _ _ _ .flag a2
  obtain ⟨s1, r1, a4⟩ := ctl_run n hn _ _ _ _ _ .flag a3 (fun _ => rfl) (fun e => by cases e)
  have a5 := ctl_print n _ _ _ _ _ a4
  have a6 := ctl_set_flag n _ _ _ _ _ a5
  have a7 := ctl_log n _ _ _ _ _ (.stderr "flag_matrix_multiply interrupted\n") a6
  have a8 := ctl_enter n _ _ _ _ _ .flag a7
  obtain ⟨s2, r2, a9⟩ := ctl_flag_armed n h1 _ _ _ _ a8
  refine ⟨s2, ?_, by simpa using a9⟩
  have r1' : flag_matrix_multiply (n : Int)
      (enter .flag ((s.log (.stderr "flag_matrix_multiply\n")).log .clock_gettime))
      = .returned s1 := r1
  simp only [flag_region, r1', bind_returned]
  exact r2

theorem write_region_ctl (n : Nat) (h1 : 1 ≤ n) (hn : n ≤ 46340) (f : Bool) (tr : List Event)
    (s : Machine D) (h : Ctl n f (some .write) .PROT_READ_WRITE tr s) :
    ∃ s', write_region (n : Int) s = .jumped s' ∧
      Ctl n f (some .write) .PROT_READ_WRITE
        (tr ++ [.stderr "write_matrix_multiply\n", .clock_gettime,
          .call .write f (some .PROT_READ_WRITE), .clock_gettime, .stderr "time: %fs\n",
          .stderr "invalidating poll page\n", .stderr "write_matrix_multiply interrupted\n",
          .call .write f (some .PROT_NONE), .stderr "protection fault handled\n"]) s' := by
  have a1 := ctl_log n _ _ _ _ _ (.stderr "write_matrix_multiply\n") h
  have a2 := ctl_log n _ _ _ _ _ .clock_gettime a1
  have a3 := ctl_enter n _ _ _ _ _ .write a2
  obtain ⟨s1, r1, a4⟩ := ctl_run n hn _ _ _ _ _ .write a3 (fun e => by cases e) (fun _ => rfl)
  have a5 := ctl_print n _ _ _ _ _ a4
  have a6 := ctl_invalidate n _ _ _ _ _ a5
  have a7 := ctl_log n _ _ _ _ _ (.stderr "write_matrix_multiply interrupted\n") a6
  have a8 := ctl_enter n _ _ _ _ _ .write a7
  obtain ⟨s2, r2, a9⟩ := ctl_write_armed n h1 _ _ _ _ a8
  refine ⟨s2, ?_, by simpa using a9⟩
  have r1' : write_matrix_multiply (n : Int)
      (enter .write ((s.log (.stderr "write_matrix_multiply\n")).log .clock_gettime))
      = .returned s1 := r1
  simp only [write_region, r1', bind_returned]
  exact r2

theorem test_region_ctl (n : Nat) (hn : n ≤ 46340) (f : Bool) (tr : List Event)
    (s : Machine D) (h : Ctl n f (some .test) .PROT_READ_WRITE tr s) :
    ∃ s', test_region (n : Int) s = .returned s' ∧
      Ctl n f (some .test) .PROT_NONE
        (tr ++ [.stderr "test_matrix_multiply\n", .clock_gettime,
          .call .test f (some .PROT_READ_WRITE), .clock_gettime, .stderr "time: %fs\n",
          .stderr "invalidating poll page\n", .stderr "test_matrix_multiply interrupted\n",
          .call .test f (some .PROT_NONE)]) s' := by
  have a1 := ctl_log n _ _ _ _ _ (.stderr "test_matrix_multiply\n") h
  have a2 := ctl_log n _ _ _ _ _ .clock_gettime a1
  have a3 := ctl_enter n _ _ _ _ _ .test a2
  obtain ⟨s1, r1, a4⟩ := ctl_run n hn _ _ _ _ _ .test a3 (fun e => by cases e)
    (fun e => by cases e)
  have a5 := ctl_print n _ _ _ _ _ a4
  have a6 := ctl_invalidate n _ _ _ _ _ a5
  have a7 := ctl_log n _ _ _ _ _ (.stderr "test_matrix_multiply interrupted\n") a6
  have a8 := ctl_enter n _ _ _ _ _ .test a7
  obtain ⟨s2, r2, a9⟩ := ctl_run n hn _ _ _ _ _ .test a8 (fun e => by cases e)
    (fun e => by cases e)
  refine ⟨s2, ?_, by simpa using a9⟩
  have r1' : test_matrix_multiply (n : Int)
      (enter .test ((s.log (.stderr "test_matrix_multiply\n")).log .clock_gettime))
      = .returned s1 := r1
  simp only [test_region, r1', bind_returned]
  exact r2

/-- The harness from line 140 on, for any dimension from 1 to 46340: it
returns, with the flag set, the page left without access, and exactly the
events of `harness_events` added to the trace. -/
theorem main_from_ctl (n : Nat) (h1 : 1 ≤ n) (hn : n ≤ 46340) (j : Option Region)
    (tr : List Event) (s : Machine D) (h : Ctl n false j .PROT_READ_WRITE tr s) :
    ∃ s', main_from (n : Int) s = .returned s' ∧
      Ctl n true (some .test) .PROT_NONE (tr ++ harness_events) s' := by
  have a1 := ctl_log n _ _ _ _ _ (.stderr "uninterruptible_matrix_multiply\n") h
  have a2 := ctl_log n _ _ _ _ _ .clock_gettime a1
  have a3 := ctl_enter n _ _ _ _ _ .uninterruptible a2
  obtain ⟨s1, r1, a4⟩ := ctl_run n hn _ _ _ _ _ .uninterruptible a3 (fun e => by cases e)
    (fun e => by cases e)
  have a5 := ctl_print n _ _ _ _ _ a4
  -- first region
  have b1 := ctl_setjmp n _ _ _ _ _ .flag a5
  obtain ⟨s2, r2, b2⟩ := flag_region_ctl n h1 hn _ _ _ b1
  have r2' := protected_region_jumped .flag "flag interrupted!\n" (flag_region (n : Int)) _ s2
    r2 b2.2.1
  have b3 := ctl_log n _ _ _ _ _ (.stderr "flag interrupted!\n")
    (ctl_log n _ _ _ _ _ (.setjmp .flag 1) b2)
  -- second region
  have c1 := ctl_setjmp n _ _ _ _ _ .write b3
  obtain ⟨s3, r3, c2⟩ := write_region_ctl n h1 hn _ _ _ c1
  have r3' := protected_region_jumped .write "write protection interrupted!\n"
    (write_region (n : Int)) _ s3 r3 c2.2.1
  have c3 := ctl_log n _ _ _ _ _ (.stderr "write protection interrupted!\n")
    (ctl_log n _ _ _ _ _ (.setjmp .write 1) c2)
  -- third region
  have d1 := ctl_setjmp n _ _ _ _ _ .test c3
  obtain ⟨s4, r4, d2⟩ := test_region_ctl n hn _ _ _ d1
  have r4' := protected_region_returned .test "test protection interrupted!\n"
    (test_region (n : Int)) _ s4 r4
  refine ⟨s4, ?_, by simpa [harness_events] using d2⟩
  have r1' : uninterruptible_matrix_multiply (n : Int)
      (enter .uninterruptible
        ((s.log (.stderr "uninterruptible_matrix_multiply\n")).log .clock_gettime))
      = .returned s1 := r1
  simp only [main_from, r1', bind_returned, r2', r3', r4']

end HarnessRun

theorem malloc_length {D : Type} (g : Nat → D) (n : Nat) :
    ∃ l, malloc (some g) n = some l ∧ l.length = n :=
  ⟨(List.range n).map g, rfl, by simp⟩

section MainRun

variable {D : Type} [Zero D] [Add D] [Mul D]

/-- When every set-up call succeeds `main` returns 0, with the flag set, the
page left without access, and exactly the events of `main_events`. -/
theorem main_ctl (env : Env D) (hok : env.ok) :
    ∃ s, main env = .exited 0 s ∧ Ctl 1024 true (some .test) .PROT_NONE main_events s := by
  obtain ⟨h1, h2, h3, h4, h5⟩ := hok
  obtain ⟨ga, hga⟩ := Option.isSome_iff_exists.mp h3
  obtain ⟨gb, hgb⟩ := Option.isSome_iff_exists.mp h4
  obtain ⟨gc, hgc⟩ := Option.isSome_iff_exists.mp h5
  obtain ⟨la, ea, hla⟩ := malloc_length ga (((1024 : Int) * 1024).toNat)
  obtain ⟨lb, eb, hlb⟩ := malloc_length gb (((1024 : Int) * 1024).toNat)
  obtain ⟨lc, ec, hlc⟩ := malloc_length gc (((1024 : Int) * 1024).toNat)
  have hsz : ((1024 : Int) * 1024).toNat = 1024 * 1024 := by decide
  rw [hsz] at hla hlb hlc
  have h0 : Ctl 1024 false none .PROT_READ_WRITE [.stderr "poll page installed to %p\n"]
      ({ ({ (Machine.log { (Machine.initial : Machine D) with
                poll_page := some { prot := .PROT_READ_WRITE, value := 0 } }
              (.stderr "poll page installed to %p\n")) with sigbus_action := true }) with
          a := la, b := lb, c := lc }) :=
    ⟨rfl, rfl, rfl, rfl, rfl, rfl, hla, hlb, hlc⟩
  obtain ⟨s, hr, hs⟩ := main_from_ctl 1024 (by decide) (by decide) _ _ _ h0
  refine ⟨s, ?_, hs⟩
  have hr' : main_from (1024 : Int) _ = .returned s := hr
  simp only [main, setup_poll_page, setup_protection_handler, h1, h2, hga, hgb, hgc, ea, eb, ec,
    if_true, hr']

end MainRun

theorem env0_ok : env0.ok := ⟨rfl, rfl, rfl, rfl, rfl⟩

section ClaimC6

variable {D : Type}

/-- Arming the trap changes the protection of the page and the trace only. -/
theorem invalidate_poll_page_frame (s : Machine D) :
    (invalidate_poll_page s).a = s.a ∧ (invalidate_poll_page s).b = s.b ∧
    (invalidate_poll_page s).c = s.c ∧
    (invalidate_poll_page s).interrupt_flag = s.interrupt_flag ∧
    (invalidate_poll_page s).poll_page.map PollPage.value = s.poll_page.map PollPage.value ∧
    (invalidate_poll_page s).interrupt_handler = s.interrupt_handler ∧
    (invalidate_poll_page s).sigbus_action = s.sigbus_action ∧
    (invalidate_poll_page s).polls = s.polls ∧ (invalidate_poll_page s).async = s.async ∧
    (s.poll_page.isSome = true →
      (invalidate_poll_page s).poll_page.map PollPage.prot = some .PROT_NONE) := by
  unfold invalidate_poll_page mprotect Machine.log
  cases h : s.poll_page <;> simp [h]

/-- Changing the protection of the page touches nothing else. -/
theorem mprotect_frame (q : Prot) (s : Machine D) :
    (mprotect q s).a = s.a ∧ (mprotect q s).b = s.b ∧ (mprotect q s).c = s.c ∧
    (mprotect q s).interrupt_flag = s.interrupt_flag ∧
    (mprotect q s).interrupt_handler = s.interrupt_handler ∧
    (mprotect q s).sigbus_action = s.sigbus_action ∧ (mprotect q s).trace = s.trace ∧
    (mprotect q s).polls = s.polls ∧ (mprotect q s).async = s.async ∧
    (mprotect q s).poll_page = s.poll_page.map fun pg => { pg with prot := q } := by
  unfold mprotect
  cases h : s.poll_page <;> simp [h]

/-- The handler prints its line, restores the page and jumps; with no
resumption point captured its `longjmp` is undefined. -/
theorem protection_handler_eq (s : Machine D) :
    protection_handler s =
      match s.interrupt_handler with
      | some _ =>
        .jumped (mprotect .PROT_READ_WRITE (s.log (.stderr "protection fault handled\n")))
      | none => .undefined := by
  have h := (mprotect_frame .PROT_READ_WRITE
    (s.log (.stderr "protection fault handled\n"))).2.2.2.2.1
  unfold protection_handler longjmp
  rw [h]
  rfl

/-- Every poll keeps `a` and `b`, however it ends. -/
theorem poll_keeps_inputs (v : Variant) (A B : List D) (s : Machine D)
    (h : s.a = A ∧ s.b = B) :
    (v.poll s).Holds (fun s' => s'.a = A ∧ s'.b = B) (fun m => m.a = A ∧ m.b = B) := by
  obtain ⟨h1, h2, _, _, h5, _⟩ := begin_poll_frame s
  have hb : (begin_poll s).a = A ∧ (begin_poll s).b = B := ⟨h1.trans h.1, h2.trans h.2⟩
  cases v with
  | uninterruptible => exact h
  | flag =>
    simp only [Variant.poll, flag_poll, longjmp]
    split
    · split
      · exact hb
      · trivial
    · exact hb
  | write =>
    simp only [Variant.poll, write_poll]
    split
    · trivial
    · split
      · exact hb
      · unfold sigbus
        split
        · rw [protection_handler_eq]
          split
          · obtain ⟨m1, m2, _⟩ := mprotect_frame .PROT_READ_WRITE
              ((begin_poll s).log (.stderr "protection fault handled\n"))
            exact ⟨m1.trans hb.1, m2.trans hb.2⟩
          · trivial
        · trivial
  | test => exact hb

variable [Zero D] [Add D] [Mul D]

/-- However a routine ends, `a` and `b` are what they were. -/
theorem run_keeps_inputs (v : Variant) (size : Int) (s : Machine D) :
    (run v size s).Holds (fun s' => s'.a = s.a ∧ s'.b = s.b)
      (fun m => m.a = s.a ∧ m.b = s.b) := by
  rw [run_eq_multiply_with]
  exact holds_multiply_with v.poll _ _ (fun s' hs' => poll_keeps_inputs v s.a s.b s' hs')
    (fun _ _ hs' => hs') size s ⟨rfl, rfl⟩

theorem write_runs_keep_inputs (size : Int) (k : Nat) (s : Machine D) :
    (write_runs size k s).Holds (fun s' => s'.a = s.a ∧ s'.b = s.b)
      (fun m => m.a = s.a ∧ m.b = s.b) := by
  induction k with
  | zero => exact ⟨rfl, rfl⟩
  | succ k ih =>
    refine holds_bind _ _ _ _ _ ih (fun s1 h1 => ?_)
    have h2 := run_keeps_inputs .write size s1
    rw [h1.1, h1.2] at h2
    exact h2

/-- After `k ≥ 0` uninterrupted write runs on buffers of `n*n` cells. -/
theorem write_runs_returned (n : Nat) (hn : n ≤ 46340) (k : Nat) (s : Machine D)
    (ha : s.a.length = n * n) (hb : s.b.length = n * n) (hc : s.c.length = n * n)
    (hasync : s.async = none) (hun : Unarmed .write s) :
    ∃ sk, write_runs (n : Int) k s = .returned sk ∧ SameControl s sk ∧ sk.a = s.a ∧
      sk.b = s.b ∧ sk.c.length = n * n ∧
      (1 ≤ k → ∀ q, q < n * n → sk.c[q]? = some (dot n s.a s.b (q / n) (q % n))) := by
  induction k with
  | zero => exact ⟨s, rfl, ⟨rfl, rfl, rfl, rfl, rfl, rfl⟩, rfl, rfl, hc, fun h => absurd h (by decide)⟩
  | succ k ih =>
    obtain ⟨sk, hr, ⟨g1, g2, g3, g4, g5, g6⟩, ha', hb', hc', _⟩ := ih
    have hun' : Unarmed .write sk := by
      obtain ⟨val, hval⟩ := hun
      rw [hval] at g5
      cases hpg : sk.poll_page with
      | none => simp [hpg] at g5
      | some pg =>
        obtain ⟨pr, val'⟩ := pg
        simp [hpg] at g5
        exact ⟨val', by rw [hpg, g5]⟩
    obtain ⟨s', hr', ⟨f1, f2, f3, f4, f5, f6⟩, ha'', hb'', hc'', _⟩ :=
      run_returned .write n hn sk (by rw [ha', ha]) (by rw [hb', hb]) hc' (g6.trans hasync) hun'
    refine ⟨s', ?_, ⟨f1.trans g1, f2.trans g2, f3.trans g3, f4.trans g4, f5.trans g5,
      f6.trans g6⟩, ha''.trans ha', hb''.trans hb', by rw [hc'', filled_length, hc'], ?_⟩
    · show (write_runs (n : Int) k s).bind (write_matrix_multiply (n : Int)) = _
      rw [hr, bind_returned]
      exact hr'
    · intro _ q hq
      rw [hc'', filled_getElem?, if_pos ⟨hq, by rw [hc']; exact hq⟩, ha', hb']

/-- C6: for every `k ≥ 0` and every state `sk` reached after `k` completed
write runs, `invalidate_poll_page` changes the protection of the poll page
(and prints its line) and nothing else: `a`, `b`, `c`, `interrupt_flag`, the
`int` stored in the page, the resumption point, the signal action and the poll
counter are unchanged, and `a`, `b` are still the inputs of the runs.  So what
the runs left in `c` is still there; in particular, for runs of a dimension
`n ≤ 46340` on `n*n` buffers started with the page readable and writable and
`k ≥ 1`, every cell of `c` still holds its matrix-product value. -/
theorem invalidate_after_write_runs_keeps_results (size : Int) (k : Nat) (s sk : Machine D)
    (hruns : write_runs size k s = .returned sk) :
    ((invalidate_poll_page sk).a = sk.a ∧ (invalidate_poll_page sk).b = sk.b ∧
      (invalidate_poll_page sk).c = sk.c ∧
      (invalidate_poll_page sk).interrupt_flag = sk.interrupt_flag ∧
      (invalidate_poll_page sk).poll_page.map PollPage.value
        = sk.poll_page.map PollPage.value ∧
      (invalidate_poll_page sk).interrupt_handler = sk.interrupt_handler ∧
      (invalidate_poll_page sk).sigbus_action = sk.sigbus_action ∧
      (invalidate_poll_page sk).polls = sk.polls ∧
      (sk.poll_page.isSome = true →
        (invalidate_poll_page sk).poll_page.map PollPage.prot = some .PROT_NONE)) ∧
    (sk.a = s.a ∧ sk.b = s.b) ∧
    (∀ n : Nat, size = n → n ≤ 46340 → 1 ≤ k → s.a.length = n * n → s.b.length = n * n →
      s.c.length = n * n → s.async = none →
      (∃ val, s.poll_page = some { prot := .PROT_READ_WRITE, value := val }) →
      ∀ i j, i < n → j < n →
        (invalidate_poll_page sk).c[i * n + j]? = some (dot n s.a s.b i j)) := by
  obtain ⟨h1, h2, h3, h4, h5, h6, h7, h8, _, h10⟩ := invalidate_poll_page_frame sk
  have hkeep := write_runs_keep_inputs size k s
  rw [hruns] at hkeep
  refine ⟨⟨h1, h2, h3, h4, h5, h6, h7, h8, h10⟩, hkeep, ?_⟩
  intro n hsize hn hk ha hb hc hasync hpage i j hi hj
  subst hsize
  obtain ⟨sk', hr, _, _, _, _, hcells⟩ := write_runs_returned n hn k s ha hb hc hasync hpage
  rw [hruns] at hr
  cases hr
  have hq : i * n + j < n * n := cell_index_lt n i j hi hj
  have hn0 : 0 < n := Nat.lt_of_le_of_lt (Nat.zero_le _) hj
  have e1 : (i * n + j) / n = i := by
    rw [Nat.add_comm, Nat.add_mul_div_right _ _ hn0, Nat.div_eq_of_lt hj, Nat.zero_add]
  have e2 : (i * n + j) % n = j := by
    rw [Nat.add_comm, Nat.add_mul_mod_self_right, Nat.mod_eq_of_lt hj]
  rw [h3, hcells hk _ hq, e1, e2]

end ClaimC6

section Indexed

variable {D σ : Type}

variable [Zero D] [Add D] [Mul D]

end Indexed

section Abandoned

variable {D σ : Type}

variable [Zero D] [Add D] [Mul D]

end Abandoned

section JumpedRuns

variable {D : Type} [Zero D] [Add D] [Mul D]

end JumpedRuns

section AsyncRuns

variable {D : Type}

variable [Zero D] [Add D] [Mul D]

end AsyncRuns

section FlagKept

variable {D : Type}

/-- No poll clears `interrupt_flag`, however it ends. -/
theorem poll_keeps_flag (v : Variant) (s : Machine D) (h : s.interrupt_flag = true) :
    (v.poll s).Holds (fun s' => s'.interrupt_flag = true)
      (fun m => m.interrupt_flag = true) := by
  have hb : (begin_poll s).interrupt_flag = true := (begin_poll_frame s).2.2.2.2.2.2.2 h
  cases v with
  | uninterruptible => exact h
  | flag =>
    simp only [Variant.poll, flag_poll, hb, if_true, longjmp]
    split
    · exact hb
    · trivial
  | write =>
    simp only [Variant.poll, write_poll]
    split
    · trivial
    · split
      · exact hb
      · unfold sigbus
        split
        · rw [protection_handler_eq]
          split
          · exact ((mprotect_frame .PROT_READ_WRITE
              ((begin_poll s).log (.stderr "protection fault handled\n"))).2.2.2.1).trans hb
          · trivial
        · trivial
  | test => exact hb

/-- A poll of the write or test routine that jumps does so out of the
protection handler: the page is readable and writable again and the line of
the handler is the last of the trace; a poll that returns adds nothing to
the trace. -/
theorem poll_jump_restores_page (v : Variant) (hv : v = .write ∨ v = .test) (tr : List Event)
    (s : Machine D) (h : s.trace = tr) :
    (v.poll s).Holds (fun s' => s'.trace = tr)
      (fun m => (∃ val, m.poll_page = some { prot := .PROT_READ_WRITE, value := val }) ∧
        m.trace = tr ++ [.stderr "protection fault handled\n"]) := by
  have hb : (begin_poll s).trace = tr := ((begin_poll_frame s).2.2.2.1).trans h
  rcases hv with rfl | rfl
  · simp only [Variant.poll, write_poll]
    split
    · trivial
    · rename_i pg hpg
      split
      · exact hb
      · unfold sigbus
        split
        · rw [protection_handler_eq]
          split
          · obtain ⟨_, _, _, _, _, _, m7, _, _, m10⟩ := mprotect_frame .PROT_READ_WRITE
              ((begin_poll s).log (.stderr "protection fault handled\n"))
            refine ⟨⟨pg.value, ?_⟩, ?_⟩
            · rw [m10]
              simp [Machine.log, hpg]
            · rw [m7]
              simp [Machine.log, hb]
          · trivial
        · trivial
  · exact hb

variable [Zero D] [Add D] [Mul D]

/-- However a routine ends, it has not cleared `interrupt_flag`. -/
theorem run_keeps_flag (v : Variant) (size : Int) (s : Machine D)
    (h : s.interrupt_flag = true) :
    (run v size s).Holds (fun s' => s'.interrupt_flag = true)
      (fun m => m.interrupt_flag = true) := by
  rw [run_eq_multiply_with]
  exact holds_multiply_with v.poll _ _ (fun s' hs' => poll_keeps_flag v s' hs')
    (fun _ _ hs' => hs') size s h

/-- A write or test run that is abandoned was abandoned by the protection
handler, which restored the page first. -/
theorem run_jump_restores_page (v : Variant) (hv : v = .write ∨ v = .test) (size : Int)
    (s : Machine D) :
    (run v size s).Holds (fun s' => s'.trace = s.trace)
      (fun m => (∃ val, m.poll_page = some { prot := .PROT_READ_WRITE, value := val }) ∧
        m.trace = s.trace ++ [.stderr "protection fault handled\n"]) := by
  rw [run_eq_multiply_with]
  exact holds_multiply_with v.poll _ _
    (fun s' hs' => poll_jump_restores_page v hv s.trace s' hs') (fun _ _ hs' => hs') size s rfl

/-- The test routine never leaves through `longjmp`: its poll reads the
pointer variable, so no protection of the poll page makes it fault. -/
theorem test_run_never_jumps (size : Int) (s m : Machine D) :
    test_matrix_multiply size s ≠ .jumped m := by
  intro h
  have hh := holds_multiply_with (Variant.poll .test) (fun _ : Machine D => True)
    (fun _ => False) (fun s' _ => trivial) (fun _ _ _ => trivial) size s trivial
  have e : multiply_with (Variant.poll .test) size s = test_matrix_multiply size s := rfl
  rw [e, h] at hh
  exact hh

end FlagKept

/-- Witness of C6: two complete write runs on the sample of dimension 2, then
the trap is armed. -/
theorem invalidate_after_write_runs_keeps_results_witness :
    write_runs 2 2 sample2 = .returned sample2_after ∧
    (invalidate_poll_page sample2_after).c = sample2_after.c ∧
    (invalidate_poll_page sample2_after).poll_page.map PollPage.value
      = sample2_after.poll_page.map PollPage.value ∧
    (sample2_after.a = sample2.a ∧ sample2_after.b = sample2.b) :=
  ⟨by decide,
    (invalidate_after_write_runs_keeps_results 2 2 sample2 sample2_after (by decide)).1.2.2.1,
    (invalidate_after_write_runs_keeps_results 2 2 sample2 sample2_after (by decide)).1.2.2.2.2.1,
    (invalidate_after_write_runs_keeps_results 2 2 sample2 sample2_after (by decide)).2.1⟩

section ClaimC3

variable {D : Type} [Zero D] [Add D] [Mul D]

/-- C3: whenever a write or test run is interrupted (it leaves through
`longjmp` into state `m`), the jump was made by `protection_handler` after it
had set the page back to readable and writable: its line is the last of the
trace and the page is readable and writable in `m`, the state that reaches
the recovery path; so the next access to the page (a poll of either routine,
with no asynchronous actor) returns instead of faulting.  The handler itself,
run with a resumption point captured, restores the page and then jumps.  In
`main` (every set-up call succeeding) the armed write run faults, the handler
runs, the recovery path of the write region is reached and the clean test run
that follows is entered with the page readable and writable and runs to the
report of its elapsed time; the process exits with status 0. -/
theorem page_restored_before_recovery (env : Env D) (v : Variant) (size : Int)
    (s m : Machine D) (hok : env.ok) (hv : v = .write ∨ v = .test)
    (hrun : run v size s = .jumped m) :
    (∃ val, m.poll_page = some { prot := .PROT_READ_WRITE, value := val }) ∧
    m.trace = s.trace ++ [.stderr "protection fault handled\n"] ∧
    (m.async = none →
      (∃ s', write_poll m = .returned s') ∧ (∃ s', test_poll m = .returned s')) ∧
    (∀ (s0 : Machine D) (r : Region) (pg : PollPage), s0.interrupt_handler = some r →
      s0.poll_page = some pg →
      ∃ m0, protection_handler s0 = .jumped m0 ∧
        m0.poll_page = some { pg with prot := .PROT_READ_WRITE }) ∧
    ∃ sf, main env = .exited 0 sf ∧
      [ Event.call .write true (some .PROT_NONE),
        .stderr "protection fault handled\n",
        .setjmp .write 1, .stderr "write protection interrupted!\n",
        .setjmp .test 0,
        .stderr "test_matrix_multiply\n", .clock_gettime,
        .call .test true (some .PROT_READ_WRITE),
        .clock_gettime, .stderr "time: %fs\n" ] <:+: sf.trace := by
  have h := run_jump_restores_page v hv size s
  rw [hrun] at h
  obtain ⟨⟨val, hval⟩, htr⟩ := h
  refine ⟨⟨val, hval⟩, htr, ?_, ?_, ?_⟩
  · intro hasync
    refine ⟨⟨{ m with polls := m.polls + 1,
                      poll_page := some { prot := .PROT_READ_WRITE, value := 14 } }, ?_⟩,
      ⟨_, rfl⟩⟩
    simp only [write_poll, begin_poll_sync m hasync, hval]
  · intro s0 r pg hr hpg
    refine ⟨mprotect .PROT_READ_WRITE (s0.log (.stderr "protection fault handled\n")), ?_, ?_⟩
    · rw [protection_handler_eq, hr]
    · rw [(mprotect_frame _ _).2.2.2.2.2.2.2.2.2]
      simp [Machine.log, hpg]
  · obtain ⟨sf, hmain, hctl⟩ := main_ctl env hok
    refine ⟨sf, hmain, main_events.take 24, main_events.drop 34, ?_⟩
    rw [hctl.2.2.2.1]
    decide

end ClaimC3

/-- Witness of C3: the write routine entered with the page revoked, in the
environment where every set-up call succeeds. -/
theorem page_restored_before_recovery_witness :
    (env0.ok ∧ run .write 2 sample2_revoked = .jumped sample2_recovered) ∧
    (∃ val, sample2_recovered.poll_page = some { prot := .PROT_READ_WRITE, value := val }) ∧
    sample2_recovered.trace
      = sample2_revoked.trace ++ [.stderr "protection fault handled\n"] :=
  ⟨⟨env0_ok, by decide⟩,
    (page_restored_before_recovery env0 .write 2 sample2_revoked sample2_recovered env0_ok
      (Or.inl rfl) (by decide)).1,
    (page_restored_before_recovery env0 .write 2 sample2_revoked sample2_recovered env0_ok
      (Or.inl rfl) (by decide)).2.1⟩

/-- C4, evaluated on the code: in the run of `main` where every set-up call
succeeds, the `setjmp` of the flag region and of the write region each return
`0` once and non-zero once and their notice is printed once; the `setjmp` of
the test region returns `0` once and never returns non-zero, and the notice
"test protection interrupted!" is never printed: the armed test run is not
interrupted, because its poll does not touch the poll page. -/
theorem main_never_resumes_test_region :
    ∃ sf, main env0 = .exited 0 sf ∧
      (captures .flag sf.trace = 1 ∧ resumptions .flag sf.trace = 1 ∧
        sf.trace.count (.stderr "flag interrupted!\n") = 1) ∧
      (captures .write sf.trace = 1 ∧ resumptions .write sf.trace = 1 ∧
        sf.trace.count (.stderr "write protection interrupted!\n") = 1) ∧
      (captures .test sf.trace = 1 ∧ resumptions .test sf.trace = 0 ∧
        sf.trace.count (.stderr "test protection interrupted!\n") = 0) ∧
      calls sf.trace =
        [ .call .uninterruptible false (some .PROT_READ_WRITE),
          .call .flag false (some .PROT_READ_WRITE), .call .flag true (some .PROT_READ_WRITE),
          .call .write true (some .PROT_READ_WRITE), .call .write true (some .PROT_NONE),
          .call .test true (some .PROT_READ_WRITE), .call .test true (some .PROT_NONE) ] := by
  obtain ⟨sf, hmain, hctl⟩ := main_ctl env0 env0_ok
  refine ⟨sf, hmain, ?_⟩
  rw [hctl.2.2.2.1]
  decide

section ClaimC5

variable {D : Type} [Zero D] [Add D] [Mul D]

end ClaimC5

section ClaimC9

variable {D : Type} [Zero D] [Add D] [Mul D]

/-- C9: no operation of the program clears `interrupt_flag`: from a state in
which it is set, every routine (however it ends), `invalidate_poll_page`,
`protection_handler`, `print_elapsed_time`, `setjmp`, the call bookkeeping
and `fprintf` leave it set.  In `main` (every set-up call succeeding) the
flag is false at the two calls made before the assignment `interrupt_flag =
true`, true at each of the five calls made after it (the armed flag run, both
write runs and both test runs) and true when `main` returns; and a further
call of `flag_matrix_multiply` with any dimension `size ≥ 1` made then is
abandoned at its first check, `c` untouched. -/
theorem interrupt_flag_stays_set (env : Env D) (hok : env.ok) :
    (∀ (v : Variant) (size : Int) (s : Machine D), s.interrupt_flag = true →
      (run v size s).Holds (fun s' => s'.interrupt_flag = true)
        (fun m => m.interrupt_flag = true)) ∧
    (∀ s : Machine D, s.interrupt_flag = true →
      (invalidate_poll_page s).interrupt_flag = true ∧
      (protection_handler s).Holds (fun s' => s'.interrupt_flag = true)
        (fun m => m.interrupt_flag = true) ∧
      (print_elapsed_time s).interrupt_flag = true ∧
      (∀ r, (setjmp r s).interrupt_flag = true) ∧ (∀ v, (enter v s).interrupt_flag = true) ∧
      (∀ e, (s.log e).interrupt_flag = true)) ∧
    ∃ sf, main env = .exited 0 sf ∧ sf.interrupt_flag = true ∧
      (∃ before after, sf.trace = before ++ .stderr "flag_matrix_multiply interrupted\n" :: after ∧
        calls before = [ .call .uninterruptible false (some .PROT_READ_WRITE),
          .call .flag false (some .PROT_READ_WRITE) ] ∧
        calls after = [ .call .flag true (some .PROT_READ_WRITE),
          .call .write true (some .PROT_READ_WRITE), .call .write true (some .PROT_NONE),
          .call .test true (some .PROT_READ_WRITE), .call .test true (some .PROT_NONE) ]) ∧
      ∀ size : Int, 1 ≤ size →
        ∃ m, flag_matrix_multiply size sf = .jumped m ∧ m.polls = sf.polls + 1 ∧
          m.c = sf.c := by
  refine ⟨fun v size s h => run_keeps_flag v size s h, ?_, ?_⟩
  · intro s h
    refine ⟨(invalidate_poll_page_frame s).2.2.2.1.trans h, ?_, h, fun _ => h, fun _ => h,
      fun _ => h⟩
    rw [protection_handler_eq]
    split
    · exact ((mprotect_frame _ _).2.2.2.1).trans h
    · trivial
  · obtain ⟨sf, hmain, hctl⟩ := main_ctl env hok
    refine ⟨sf, hmain, hctl.1, ⟨main_events.take 12, main_events.drop 13, ?_⟩, ?_⟩
    · rw [hctl.2.2.2.1]
      decide
    · intro size hsize
      obtain ⟨_, _, hc, _, _, _, hp, _⟩ := begin_poll_frame sf
      exact ⟨begin_poll sf, flag_run_jumps size sf .test hsize hctl.1 hctl.2.1, hp, hc⟩

end ClaimC9

/-- Witness of C9: the environment where fresh memory reads as `0`. -/
theorem interrupt_flag_stays_set_witness :
    env0.ok ∧ ∃ sf, main env0 = .exited 0 sf ∧ sf.interrupt_flag = true :=
  ⟨env0_ok, by
    obtain ⟨sf, h1, h2, _⟩ := (interrupt_flag_stays_set env0 env0_ok).2.2
    exact ⟨sf, h1, h2⟩⟩

section WriteRevoked

variable {D : Type}

variable [Zero D] [Add D] [Mul D]

end WriteRevoked

section ClaimC7

variable {D : Type} [Zero D] [Add D] [Mul D]

end ClaimC7

end LowOverheadPolling
